import Mathlib

/-!
# Verification of the moodle_scraper extraction engine

A shallow embedding of the core of the `moodle_scraper` repository
(`src/scraper/extractors.ts`, `src/scraper/MoodleScraper.ts`,
`src/scraper/MoodleAuth.ts`, `src/index.ts`): the pure field
normalizers (text cleaning, date parsing, numeric parsing, file-type
inference), the per-element record extractors, and the control
skeletons of the orchestrator and authenticator (login, the 2FA wait
loop, session validity, scrapeAll / scrapeMoodle lifecycle).

JavaScript strings are modelled as `String` / `List Char`; JavaScript
numbers produced by `parseFloat` on digit-and-dot matches are modelled
exactly as rationals (`ℚ`); `Date` objects are modelled as civil dates
(`CivilDate`), with the invalid date (`NaN` time value) as `none`.
The browser capability (navigate / query selector / type / click) is
an opaque environment, following the spec's capability boundary.
-/

namespace MoodleScraper

/-! ## JavaScript character classes -/

/-- The character set of the JavaScript regex class `\s` (and of
`String.prototype.trim`): ASCII whitespace, NBSP, the Unicode
space separators, the line separators and the BOM. -/
def isWs (c : Char) : Bool :=
  c = ' ' || c = '\t' || c = '\n' || c.val = 11 || c.val = 12 || c = '\r' ||
  c.val = 0xA0 || c.val = 0x1680 || (0x2000 ≤ c.val && c.val ≤ 0x200A) ||
  c.val = 0x2028 || c.val = 0x2029 || c.val = 0x202F || c.val = 0x205F ||
  c.val = 0x3000 || c.val = 0xFEFF

/-- The JavaScript regex class `\w`: ASCII letters, digits and underscore. -/
def isWordChar (c : Char) : Bool :=
  c.isAlpha || c.isDigit || c = '_'

/-! ## `cleanText` (extractors.ts lines 331-337)

```
return text
  .replace(/\s+/g, ' ')
  .replace(/^\s+|\s+$/g, '')
  .replace(/\n/g, ' ')
  .trim();
```
-/

/-- `replace(/\s+/g, ' ')`: every maximal run of whitespace becomes one
space.  The flag records whether the previous character was part of a
whitespace run already replaced. -/
def collapseWsAux (prevWs : Bool) : List Char → List Char
  | [] => []
  | c :: rest =>
    if isWs c then
      if prevWs then collapseWsAux true rest
      else ' ' :: collapseWsAux true rest
    else c :: collapseWsAux false rest

/-- `replace(/\s+/g, ' ')` over a character list. -/
def collapseWs (l : List Char) : List Char := collapseWsAux false l

/-- Removal of the leading and the trailing whitespace run.  This is both
`replace(/^\s+|\s+$/g, '')` (the two anchored alternatives delete exactly
those runs) and `String.prototype.trim` (same character set). -/
def stripWsEnds (l : List Char) : List Char :=
  ((l.dropWhile isWs).reverse.dropWhile isWs).reverse

/-- `replace(/\n/g, ' ')`. -/
def replNl (l : List Char) : List Char :=
  l.map fun c => if c = '\n' then ' ' else c

/-- `cleanText` over a character list: the source's four chained
replacements in order. -/
def cleanTextL (l : List Char) : List Char :=
  stripWsEnds (replNl (stripWsEnds (collapseWs l)))

/-- `cleanText` (extractors.ts lines 331-337). -/
def cleanText (s : String) : String :=
  String.mk (cleanTextL s.data)

/-! Shape predicates used to state the cleaning contract. -/

/-- Every whitespace character of the list is a plain space. -/
def AllWsSpace (l : List Char) : Prop :=
  ∀ c ∈ l, isWs c = true → c = ' '

/-- No two adjacent characters are both whitespace. -/
def NoAdjWs (l : List Char) : Prop :=
  l.Chain' fun a b => ¬(isWs a = true ∧ isWs b = true)

/-- The first character, if any, is not whitespace. -/
def HeadNonWs (l : List Char) : Prop :=
  ∀ c, l.head? = some c → isWs c = false

/-! Lemmas about the cleaning pipeline. -/

theorem isWs_space : isWs ' ' = true := by decide

theorem collapseWsAux_allWsSpace (b : Bool) (l : List Char) :
    AllWsSpace (collapseWsAux b l) := by
  induction l generalizing b with
  | nil => intro c hc; simp [collapseWsAux] at hc
  | cons c rest ih =>
    intro d hd hws
    by_cases hc : isWs c = true
    · cases b with
      | true => simp only [collapseWsAux, hc, if_pos, if_true] at hd; exact ih true d hd hws
      | false =>
        simp only [collapseWsAux, hc, if_true, if_false] at hd
        rcases List.mem_cons.mp hd with h | h
        · exact h
        · exact ih true d h hws
    · simp only [collapseWsAux, hc, if_neg, Bool.false_eq_true, if_false] at hd
      rcases List.mem_cons.mp hd with h | h
      · subst h; exact absurd hws (by simp [hc])
      · exact ih false d h hws

theorem collapseWsAux_true_headNonWs (l : List Char) :
    HeadNonWs (collapseWsAux true l) := by
  induction l with
  | nil => intro c hc; simp [collapseWsAux] at hc
  | cons c rest ih =>
    intro d hd
    by_cases hc : isWs c = true
    · simp only [collapseWsAux, hc, if_true] at hd; exact ih d hd
    · simp only [collapseWsAux, hc, Bool.false_eq_true, if_false, List.head?_cons,
        Option.some.injEq] at hd
      subst hd; simpa using hc

theorem collapseWsAux_noAdjWs (b : Bool) (l : List Char) :
    NoAdjWs (collapseWsAux b l) := by
  induction l generalizing b with
  | nil => simp [collapseWsAux, NoAdjWs]
  | cons c rest ih =>
    by_cases hc : isWs c = true
    · cases b with
      | true => simpa only [collapseWsAux, hc, if_true] using ih true
      | false =>
        simp only [collapseWsAux, hc, if_true, if_false]
        refine List.chain'_cons'.mpr ⟨?_, ih true⟩
        intro y hy h
        exact absurd (collapseWsAux_true_headNonWs rest y hy) (by simp [h.2])
    · simp only [collapseWsAux, hc, Bool.false_eq_true, if_false]
      refine List.chain'_cons'.mpr ⟨?_, ih false⟩
      intro y _ h
      exact hc h.1

theorem chain'_dropWhile {R : Char → Char → Prop} (p : Char → Bool) :
    ∀ l : List Char, List.Chain' R l → List.Chain' R (l.dropWhile p)
  | [], h => h
  | c :: rest, h => by
    by_cases hc : p c = true
    · simp only [List.dropWhile, hc]
      exact chain'_dropWhile p rest h.tail
    · simpa only [List.dropWhile, hc] using h

theorem headNonWs_dropWhile (l : List Char) : HeadNonWs (l.dropWhile isWs) := by
  induction l with
  | nil => intro c hc; simp at hc
  | cons c rest ih =>
    by_cases hc : isWs c = true
    · simpa only [List.dropWhile, hc] using ih
    · intro d hd
      simp only [List.dropWhile, hc, Bool.false_eq_true, List.head?_cons,
        Option.some.injEq] at hd
      subst hd; simpa using hc

theorem allWsSpace_of_subset {l l' : List Char} (h : l' ⊆ l) (ha : AllWsSpace l) :
    AllWsSpace l' :=
  fun c hc hws => ha c (h hc) hws

theorem noAdjWs_reverse {l : List Char} : NoAdjWs l.reverse ↔ NoAdjWs l := by
  unfold NoAdjWs
  rw [List.chain'_reverse]
  constructor <;> exact fun h => h.imp fun a b hab h2 => hab ⟨h2.2, h2.1⟩

/-- `stripWsEnds` keeps the head unchanged when the result is nonempty,
so it preserves `HeadNonWs`. -/
theorem headNonWs_stripTrail {m : List Char} (hm : HeadNonWs m) :
    HeadNonWs (m.reverse.dropWhile isWs).reverse := by
  obtain ⟨t, ht⟩ := List.dropWhile_suffix (l := m.reverse) isWs
  intro c hc
  have hrev : m = (m.reverse.dropWhile isWs).reverse ++ t.reverse := by
    have := congrArg List.reverse ht
    simpa [List.reverse_append] using this.symm
  apply hm
  rw [hrev, List.head?_append, hc]
  rfl

theorem stripWsEnds_allWsSpace {l : List Char} (h : AllWsSpace l) :
    AllWsSpace (stripWsEnds l) := by
  refine allWsSpace_of_subset ?_ h
  intro c hc
  unfold stripWsEnds at hc
  rw [List.mem_reverse] at hc
  have := (List.dropWhile_suffix (l := (l.dropWhile isWs).reverse) isWs).subset hc
  rw [List.mem_reverse] at this
  exact (List.dropWhile_suffix (l := l) isWs).subset this

theorem stripWsEnds_noAdjWs {l : List Char} (h : NoAdjWs l) :
    NoAdjWs (stripWsEnds l) := by
  unfold stripWsEnds
  rw [noAdjWs_reverse]
  exact chain'_dropWhile isWs _ (noAdjWs_reverse.mpr (chain'_dropWhile isWs _ h))

theorem stripWsEnds_headNonWs (l : List Char) : HeadNonWs (stripWsEnds l) :=
  headNonWs_stripTrail (headNonWs_dropWhile l)

theorem stripWsEnds_lastNonWs (l : List Char) : HeadNonWs (stripWsEnds l).reverse := by
  unfold stripWsEnds
  rw [List.reverse_reverse]
  exact headNonWs_dropWhile _

theorem replNl_eq_self {l : List Char} (h : AllWsSpace l) : replNl l = l := by
  unfold replNl
  induction l with
  | nil => rfl
  | cons c rest ih =>
    have hc : c ≠ '\n' := by
      intro hceq
      have := h c (List.mem_cons_self _ _) (by subst hceq; decide)
      subst hceq; simp at this
    simp only [List.map_cons, if_neg hc, List.cons.injEq, true_and]
    exact ih fun d hd hws => h d (List.mem_cons_of_mem _ hd) hws

theorem dropWhile_eq_self_of_headNonWs {l : List Char} (h : HeadNonWs l) :
    l.dropWhile isWs = l := by
  cases l with
  | nil => rfl
  | cons c rest =>
    have := h c rfl
    simp [List.dropWhile, this]

theorem stripWsEnds_eq_self {l : List Char} (h1 : HeadNonWs l)
    (h2 : HeadNonWs l.reverse) : stripWsEnds l = l := by
  unfold stripWsEnds
  rw [dropWhile_eq_self_of_headNonWs h1, dropWhile_eq_self_of_headNonWs h2,
    List.reverse_reverse]

theorem collapseWsAux_fix : ∀ l : List Char, AllWsSpace l → NoAdjWs l →
    ((HeadNonWs l → ∀ b, collapseWsAux b l = l) ∧
     (∀ l', l = ' ' :: l' → HeadNonWs l' → collapseWsAux false l = l))
  | [], _, _ => by
    constructor
    · intro _ b; rfl
    · intro l' h; simp at h
  | c :: rest, hA, hC => by
    have hArest : AllWsSpace rest :=
      fun d hd hws => hA d (List.mem_cons_of_mem _ hd) hws
    have hCrest : NoAdjWs rest := hC.tail
    have ih := collapseWsAux_fix rest hArest hCrest
    constructor
    · intro hH b
      have hc : isWs c = false := hH c rfl
      simp only [collapseWsAux, hc, Bool.false_eq_true, if_false, List.cons.injEq, true_and]
      cases rest with
      | nil => rfl
      | cons d rest' =>
        by_cases hd : isWs d = true
        · have hdsp : d = ' ' := hA d (by simp) hd
          have hH' : HeadNonWs rest' := by
            intro e he
            have := (List.chain'_cons'.mp hCrest).1 e he
            by_contra hws
            exact this ⟨hd, by simpa using hws⟩
          subst hdsp
          exact ih.2 rest' rfl hH'
        · exact ih.1 (fun e he => by
            simp only [List.head?_cons, Option.some.injEq] at he
            subst he; simpa using hd) false
    · intro l' heq hH'
      have hcsp : c = ' ' := (List.cons.injEq _ _ _ _ ▸ heq).1
      have hrest : rest = l' := (List.cons.injEq _ _ _ _ ▸ heq).2
      subst hcsp; subst hrest
      have hstep : collapseWsAux false (' ' :: rest) = ' ' :: collapseWsAux true rest := by
        simp [collapseWsAux, isWs_space]
      rw [hstep, ih.1 hH' true]

theorem collapseWs_eq_self {l : List Char} (hA : AllWsSpace l) (hC : NoAdjWs l)
    (hH : HeadNonWs l) : collapseWs l = l :=
  (collapseWsAux_fix l hA hC).1 hH false

/-! Filter preservation: cleaning only rewrites whitespace, the
non-whitespace characters survive in order. -/

theorem collapseWsAux_filter (b : Bool) (l : List Char) :
    (collapseWsAux b l).filter (fun c => !isWs c) = l.filter (fun c => !isWs c) := by
  induction l generalizing b with
  | nil => rfl
  | cons c rest ih =>
    by_cases hc : isWs c = true
    · cases b with
      | true => simp [collapseWsAux, hc, List.filter_cons, ih]
      | false => simp [collapseWsAux, hc, List.filter_cons, isWs_space, ih]
    · simp [collapseWsAux, hc, List.filter_cons, ih]

theorem dropWhile_filter (l : List Char) :
    (l.dropWhile isWs).filter (fun c => !isWs c) = l.filter (fun c => !isWs c) := by
  induction l with
  | nil => rfl
  | cons c rest ih =>
    by_cases hc : isWs c = true
    · simp [List.dropWhile, hc, List.filter_cons, ih]
    · simp [List.dropWhile, hc, List.filter_cons]

theorem stripWsEnds_filter (l : List Char) :
    (stripWsEnds l).filter (fun c => !isWs c) = l.filter (fun c => !isWs c) := by
  unfold stripWsEnds
  rw [List.filter_reverse, dropWhile_filter, List.filter_reverse,
    List.reverse_reverse, dropWhile_filter]

theorem cleanTextL_shape (l : List Char) :
    AllWsSpace (cleanTextL l) ∧ NoAdjWs (cleanTextL l) ∧
    HeadNonWs (cleanTextL l) ∧ HeadNonWs (cleanTextL l).reverse := by
  have hA0 : AllWsSpace (collapseWs l) := collapseWsAux_allWsSpace false l
  have hC0 : NoAdjWs (collapseWs l) := collapseWsAux_noAdjWs false l
  have hA1 : AllWsSpace (stripWsEnds (collapseWs l)) := stripWsEnds_allWsSpace hA0
  have hrepl : replNl (stripWsEnds (collapseWs l)) = stripWsEnds (collapseWs l) :=
    replNl_eq_self hA1
  have hfix : cleanTextL l = stripWsEnds (collapseWs l) := by
    unfold cleanTextL
    rw [hrepl, stripWsEnds_eq_self (stripWsEnds_headNonWs _) (stripWsEnds_lastNonWs _)]
  rw [hfix]
  exact ⟨hA1, stripWsEnds_noAdjWs hC0, stripWsEnds_headNonWs _, stripWsEnds_lastNonWs _⟩

theorem cleanTextL_fix {l : List Char} (hA : AllWsSpace l) (hC : NoAdjWs l)
    (hH : HeadNonWs l) (hL : HeadNonWs l.reverse) : cleanTextL l = l := by
  unfold cleanTextL
  rw [collapseWs_eq_self hA hC hH, stripWsEnds_eq_self hH hL, replNl_eq_self hA,
    stripWsEnds_eq_self hH hL]

theorem cleanTextL_idem (l : List Char) : cleanTextL (cleanTextL l) = cleanTextL l := by
  obtain ⟨hA, hC, hH, hL⟩ := cleanTextL_shape l
  exact cleanTextL_fix hA hC hH hL

theorem cleanTextL_filter (l : List Char) :
    (cleanTextL l).filter (fun c => !isWs c) = l.filter (fun c => !isWs c) := by
  unfold cleanTextL
  rw [stripWsEnds_filter]
  have hA1 : AllWsSpace (stripWsEnds (collapseWs l)) :=
    stripWsEnds_allWsSpace (collapseWsAux_allWsSpace false l)
  rw [replNl_eq_self hA1, stripWsEnds_filter]
  unfold collapseWs
  rw [collapseWsAux_filter]

/-- C9.  `cleanText` is idempotent; its result has no leading or trailing
whitespace, every whitespace character in it is a single plain space with
no two adjacent whitespace characters (so every input whitespace run has
collapsed to one space), and the non-whitespace characters of the input
survive unchanged and in order. -/
theorem c9_cleanText_idempotent_collapses (s : String) :
    cleanText (cleanText s) = cleanText s ∧
    AllWsSpace (cleanText s).data ∧
    NoAdjWs (cleanText s).data ∧
    HeadNonWs (cleanText s).data ∧
    HeadNonWs (cleanText s).data.reverse ∧
    (cleanText s).data.filter (fun c => !isWs c) = s.data.filter (fun c => !isWs c) := by
  obtain ⟨hA, hC, hH, hL⟩ := cleanTextL_shape s.data
  refine ⟨?_, hA, hC, hH, hL, cleanTextL_filter s.data⟩
  show String.mk (cleanTextL (cleanTextL s.data)) = String.mk (cleanTextL s.data)
  rw [cleanTextL_idem]

/-! ## Regex matchers

The source relies on `String.prototype.match` with a handful of fixed
patterns.  Each matcher below implements exactly one pattern with
JavaScript semantics: leftmost starting position, greedy quantifiers
with backtracking, returning the captured substring. -/

/-- `\d{k}` exactly: take `k` leading digits. -/
def takeDigits (k : ℕ) (l : List Char) : Option (List Char × List Char) :=
  if (l.take k).length = k && (l.take k).all Char.isDigit then
    some (l.take k, l.drop k)
  else none

/-- The separator class `[\/\-]`. -/
def isSep (c : Char) : Bool := c = '/' || c = '-'

/-- One backtracking alternative of `(\d{1,2}[\/\-]\d{1,2}[\/\-]\d{2,4})`
with fixed digit-group widths. -/
def p1Try (k1 k2 k3 : ℕ) (l : List Char) : Option (List Char) := do
  let (d1, r1) ← takeDigits k1 l
  match r1 with
  | [] => none
  | s1 :: r2 =>
    if isSep s1 then do
      let (d2, r3) ← takeDigits k2 r2
      match r3 with
      | [] => none
      | s2 :: r4 =>
        if isSep s2 then do
          let (d3, _) ← takeDigits k3 r4
          some (d1 ++ s1 :: (d2 ++ s2 :: d3))
        else none
    else none

/-- `(\d{1,2}[\/\-]\d{1,2}[\/\-]\d{2,4})` anchored at the current
position, alternatives in greedy backtracking order. -/
def p1At (l : List Char) : Option (List Char) :=
  p1Try 2 2 4 l <|> p1Try 2 2 3 l <|> p1Try 2 2 2 l <|>
  p1Try 2 1 4 l <|> p1Try 2 1 3 l <|> p1Try 2 1 2 l <|>
  p1Try 1 2 4 l <|> p1Try 1 2 3 l <|> p1Try 1 2 2 l <|>
  p1Try 1 1 4 l <|> p1Try 1 1 3 l <|> p1Try 1 1 2 l

/-- The day-then-year tail `\d{1,2}, \d{4}` of pattern 2, with a fixed
width for the day group. -/
def p2Try (k : ℕ) (w r : List Char) : Option (List Char) := do
  let (d, r2) ← takeDigits k r
  match r2 with
  | ',' :: ' ' :: r3 => do
    let (y, _) ← takeDigits 4 r3
    some (w ++ ' ' :: (d ++ ',' :: ' ' :: y))
  | _ => none

/-- `(\w+ \d{1,2}, \d{4})` anchored at the current position.  `\w+` is
greedy and cannot usefully backtrack (a shorter match leaves a word
character where the space is required), so the maximal run is taken. -/
def p2At (l : List Char) : Option (List Char) :=
  let w := l.takeWhile isWordChar
  if w.isEmpty then none
  else
    match l.drop w.length with
    | ' ' :: r => p2Try 2 w r <|> p2Try 1 w r
    | _ => none

/-- `(\d{4}-\d{2}-\d{2})` anchored at the current position. -/
def p3At (l : List Char) : Option (List Char) := do
  let (y, r1) ← takeDigits 4 l
  match r1 with
  | '-' :: r2 => do
    let (m, r3) ← takeDigits 2 r2
    match r3 with
    | '-' :: r4 => do
      let (d, _) ← takeDigits 2 r4
      some (y ++ '-' :: (m ++ '-' :: d))
    | _ => none
  | _ => none

/-- The month-then-year tail `\w+ \d{4}` of pattern 4. -/
def p4Tail (d : List Char) (r : List Char) : Option (List Char) :=
  let w := r.takeWhile isWordChar
  if w.isEmpty then none
  else
    match r.drop w.length with
    | ' ' :: r2 => do
      let (y, _) ← takeDigits 4 r2
      some (d ++ ' ' :: (w ++ ' ' :: y))
    | _ => none

/-- One backtracking alternative of `(\d{1,2} \w+ \d{4})` with a fixed
width for the day group. -/
def p4Try (k : ℕ) (l : List Char) : Option (List Char) := do
  let (d, r1) ← takeDigits k l
  match r1 with
  | ' ' :: r2 => p4Tail d r2
  | _ => none

/-- `(\d{1,2} \w+ \d{4})` anchored at the current position. -/
def p4At (l : List Char) : Option (List Char) :=
  p4Try 2 l <|> p4Try 1 l

/-- Unanchored search: try the anchored matcher at every position from
the left, as `String.prototype.match` does. -/
def firstSome {α : Type} (f : List Char → Option α) : List Char → Option α
  | [] => f []
  | l@(_ :: rest) => f l <|> firstSome f rest

/-- `dateText.match(/(\d{1,2}[\/\-]\d{1,2}[\/\-]\d{2,4})/)?.[1]`. -/
def matchP1 (s : String) : Option String :=
  (firstSome p1At s.data).map String.mk

/-- `dateText.match(/(\w+ \d{1,2}, \d{4})/)?.[1]`. -/
def matchP2 (s : String) : Option String :=
  (firstSome p2At s.data).map String.mk

/-- `dateText.match(/(\d{4}-\d{2}-\d{2})/)?.[1]`. -/
def matchP3 (s : String) : Option String :=
  (firstSome p3At s.data).map String.mk

/-- `dateText.match(/(\d{1,2} \w+ \d{4})/)?.[1]`. -/
def matchP4 (s : String) : Option String :=
  (firstSome p4At s.data).map String.mk

/-! ## The JavaScript `Date` model -/

/-- A civil calendar date.  A JavaScript `Date` whose time value is not
`NaN` determines one; the "Invalid Date" sentinel is `Option.none` at
the use sites. -/
structure CivilDate where
  year : Int
  month : ℕ
  day : ℕ
deriving DecidableEq, Repr

/-- Gregorian leap year. -/
def isLeap (y : Int) : Bool := (y % 4 = 0 && ¬(y % 100 = 0)) || y % 400 = 0

/-- Days in a month (month numbered 1..12). -/
def daysInMonth (y : Int) (m : ℕ) : ℕ :=
  match m with
  | 1 => 31 | 2 => if isLeap y then 29 else 28 | 3 => 31 | 4 => 30
  | 5 => 31 | 6 => 30 | 7 => 31 | 8 => 31
  | 9 => 30 | 10 => 31 | 11 => 30 | 12 => 31
  | _ => 0

/-- A calendar-valid civil date. -/
def ValidDate (d : CivilDate) : Prop :=
  1 ≤ d.month ∧ d.month ≤ 12 ∧ 1 ≤ d.day ∧ d.day ≤ daysInMonth d.year d.month

instance (d : CivilDate) : Decidable (ValidDate d) := by
  unfold ValidDate; infer_instance

/-- `MakeDay` overflow behaviour of the engine's legacy date parser: a
day past the end of its month rolls into the following month (for day
tokens capped at 31 a single step suffices). -/
def rollDate (y : Int) (m d : ℕ) : CivilDate :=
  if d ≤ daysInMonth y m then ⟨y, m, d⟩
  else if m = 12 then ⟨y + 1, 1, d - daysInMonth y m⟩
  else ⟨y, m + 1, d - daysInMonth y m⟩

/-- Numeric value of a digit list. -/
def digitsVal (l : List Char) : ℕ :=
  l.foldl (fun acc c => 10 * acc + (c.toNat - '0'.toNat)) 0

/-- The two-digit-year convention of the legacy parser: 0-49 map to
2000-2049, 50-99 to 1950-1999, larger values are literal years. -/
def legacyYear (n : ℕ) : Int :=
  if n < 50 then 2000 + (n : Int)
  else if n < 100 then 1900 + (n : Int)
  else (n : Int)

/-- The month keyword table: three-letter prefixes and month numbers. -/
def monthKeywords : List (String × ℕ) :=
  [("jan", 1), ("feb", 2), ("mar", 3), ("apr", 4), ("may", 5), ("jun", 6),
   ("jul", 7), ("aug", 8), ("sep", 9), ("oct", 10), ("nov", 11), ("dec", 12)]

/-- Month number from a month-name word: the engine's keyword table
compares the first three letters, case-insensitively. -/
def monthFromWord (w : List Char) : Option ℕ :=
  if w.length < 3 then none
  else
    (monthKeywords.find? fun p => p.1 = String.mk ((w.take 3).map Char.toLower)).map
      Prod.snd

/-- Split `l` as digits-sep-digits-sep-digits with the given group
widths, returning the three digit groups. -/
def numTriple (k1 k2 k3 : ℕ) (l : List Char) : Option (ℕ × ℕ × ℕ) := do
  let (d1, r1) ← takeDigits k1 l
  match r1 with
  | s1 :: r2 =>
    if isSep s1 then do
      let (d2, r3) ← takeDigits k2 r2
      match r3 with
      | s2 :: r4 =>
        if isSep s2 then do
          let (d3, r5) ← takeDigits k3 r4
          if r5.isEmpty then some (digitsVal d1, digitsVal d2, digitsVal d3)
          else none
        else none
      | _ => none
    else none
  | _ => none

/-- Anchored parse of the whole list as a numeric date
`M sep D sep Y` (1-2, 1-2 and 2-4 digit groups). -/
def parseNumericDate (l : List Char) : Option (ℕ × ℕ × ℕ) :=
  numTriple 2 2 4 l <|> numTriple 2 2 3 l <|> numTriple 2 2 2 l <|>
  numTriple 2 1 4 l <|> numTriple 2 1 3 l <|> numTriple 2 1 2 l <|>
  numTriple 1 2 4 l <|> numTriple 1 2 3 l <|> numTriple 1 2 2 l <|>
  numTriple 1 1 4 l <|> numTriple 1 1 3 l <|> numTriple 1 1 2 l

/-- Anchored parse of the whole list as strict ISO `YYYY-MM-DD`. -/
def parseIsoDate (l : List Char) : Option (ℕ × ℕ × ℕ) := do
  let (y, r1) ← takeDigits 4 l
  match r1 with
  | '-' :: r2 => do
    let (m, r3) ← takeDigits 2 r2
    match r3 with
    | '-' :: r4 => do
      let (d, r5) ← takeDigits 2 r4
      if r5.isEmpty then some (digitsVal y, digitsVal m, digitsVal d)
      else none
    | _ => none
  | _ => none

/-- Anchored parse of the whole list as `Word D, YYYY`, returning the
month word together with the numeric day and year. -/
def parseMonthNameFirst (l : List Char) : Option (List Char × ℕ × ℕ) :=
  let w := l.takeWhile isWordChar
  if w.isEmpty then none
  else
    match l.drop w.length with
    | ' ' :: r =>
      (do
        let (d, r2) ← takeDigits 2 r
        match r2 with
        | ',' :: ' ' :: r3 => do
          let (y, r4) ← takeDigits 4 r3
          if r4.isEmpty then some (w, digitsVal d, digitsVal y) else none
        | _ => none) <|>
      (do
        let (d, r2) ← takeDigits 1 r
        match r2 with
        | ',' :: ' ' :: r3 => do
          let (y, r4) ← takeDigits 4 r3
          if r4.isEmpty then some (w, digitsVal d, digitsVal y) else none
        | _ => none)
    | _ => none

/-- The month-word-then-year tail of `D Word YYYY`. -/
def parseDayFirstTail (d : ℕ) (r : List Char) : Option (List Char × ℕ × ℕ) :=
  let w := r.takeWhile isWordChar
  if w.isEmpty then none
  else
    match r.drop w.length with
    | ' ' :: r2 => do
      let (y, r3) ← takeDigits 4 r2
      if r3.isEmpty then some (w, d, digitsVal y) else none
    | _ => none

/-- Anchored parse of the whole list as `D Word YYYY`, returning the
month word together with the numeric day and year. -/
def parseDayFirst (l : List Char) : Option (List Char × ℕ × ℕ) :=
  (do
    let (d, r1) ← takeDigits 2 l
    match r1 with
    | ' ' :: r2 => parseDayFirstTail (digitsVal d) r2
    | _ => none) <|>
  (do
    let (d, r1) ← takeDigits 1 l
    match r1 with
    | ' ' :: r2 => parseDayFirstTail (digitsVal d) r2
    | _ => none)

/-- Model of the engine's (V8) `new Date(string)` constructor on the
date-shaped strings the scraper feeds it: strict ISO `YYYY-MM-DD`
(calendar-validated, no overflow), legacy numeric `M/D/Y` (month 1-12
and day 1-31 required, day overflow rolled into the next month,
two-digit years mapped into 1950-2049), and the two month-name forms
(same legacy day handling).  Every string outside these shapes is
modelled as the invalid date, `none`. -/
def jsNewDate (s : String) : Option CivilDate :=
  match parseIsoDate s.data with
  | some (y, m, d) =>
    if 1 ≤ m && m ≤ 12 && 1 ≤ d && d ≤ daysInMonth (Int.ofNat y) m then
      some ⟨Int.ofNat y, m, d⟩
    else none
  | none =>
    match parseNumericDate s.data with
    | some (m, d, yraw) =>
      if 1 ≤ m && m ≤ 12 && 1 ≤ d && d ≤ 31 then
        some (rollDate (legacyYear yraw) m d)
      else none
    | none =>
      match parseMonthNameFirst s.data with
      | some (w, d, y) =>
        match monthFromWord w with
        | some m => if 1 ≤ d && d ≤ 31 then some (rollDate (Int.ofNat y) m d) else none
        | none => none
      | none =>
        match parseDayFirst s.data with
        | some (w, d, y) =>
          match monthFromWord w with
          | some m => if 1 ≤ d && d ≤ 31 then some (rollDate (Int.ofNat y) m d) else none
          | none => none
        | none => none

/-! ## `parseDate` (extractors.ts lines 344-366) -/

/-- The pattern loop of `parseDate`: for each pattern in order, if it
matches, construct a `Date` from the captured text; return it if it is
not invalid, otherwise continue with the next pattern. -/
def tryDatePatterns : List (String → Option String) → String → Option CivilDate
  | [], _ => none
  | p :: ps, s =>
    match p s with
    | some m =>
      match jsNewDate m with
      | some d => some d
      | none => tryDatePatterns ps s
    | none => tryDatePatterns ps s

/-- `parseDate` (extractors.ts lines 344-366): empty text is null;
otherwise the four patterns are tried in order and the first match that
yields a valid date is returned. -/
def parseDate (dateText : String) : Option CivilDate :=
  if dateText = "" then none
  else tryDatePatterns [matchP1, matchP2, matchP3, matchP4] dateText

/-! Lemmas about `parseDate`. -/

theorem daysInMonth_ge_28 (y : Int) (m : ℕ) (h1 : 1 ≤ m) (h2 : m ≤ 12) :
    28 ≤ daysInMonth y m := by
  interval_cases m <;> simp [daysInMonth] <;> split_ifs <;> omega

theorem rollDate_valid (y : Int) (m d : ℕ) (hm1 : 1 ≤ m) (hm2 : m ≤ 12)
    (hd1 : 1 ≤ d) (hd2 : d ≤ 31) : ValidDate (rollDate y m d) := by
  unfold rollDate ValidDate
  split_ifs with h1 h2
  · exact ⟨hm1, hm2, hd1, h1⟩
  · subst h2
    have h28 : 28 ≤ daysInMonth y 12 := daysInMonth_ge_28 y 12 (by omega) (by omega)
    have h28' : 28 ≤ daysInMonth (y + 1) 1 := daysInMonth_ge_28 (y + 1) 1 (by omega) (by omega)
    dsimp only
    omega
  · have h28 : 28 ≤ daysInMonth y m := daysInMonth_ge_28 y m hm1 hm2
    have h28' : 28 ≤ daysInMonth y (m + 1) := daysInMonth_ge_28 y (m + 1) (by omega) (by omega)
    dsimp only
    omega

theorem monthFromWord_bounds {w : List Char} {m : ℕ}
    (h : monthFromWord w = some m) : 1 ≤ m ∧ m ≤ 12 := by
  unfold monthFromWord at h
  split_ifs at h with hlen
  rw [Option.map_eq_some'] at h
  obtain ⟨p, hp, hpm⟩ := h
  have hmem := List.mem_of_find?_eq_some hp
  subst hpm
  have hall : ∀ q ∈ monthKeywords, 1 ≤ q.2 ∧ q.2 ≤ 12 := by decide
  exact hall p hmem

theorem jsNewDate_valid {s : String} {d : CivilDate}
    (h : jsNewDate s = some d) : ValidDate d := by
  unfold jsNewDate at h
  cases hiso : parseIsoDate s.data with
  | some t =>
    obtain ⟨y, m, dd⟩ := t
    rw [hiso] at h
    simp only at h
    split_ifs at h with hg
    · cases h
      simp only [Bool.and_eq_true, decide_eq_true_eq] at hg
      exact ⟨hg.1.1.1, hg.1.1.2, hg.1.2, hg.2⟩
  | none =>
    rw [hiso] at h
    simp only at h
    cases hnum : parseNumericDate s.data with
    | some t =>
      obtain ⟨m, dd, yraw⟩ := t
      rw [hnum] at h
      simp only at h
      split_ifs at h with hg
      · cases h
        simp only [Bool.and_eq_true, decide_eq_true_eq] at hg
        exact rollDate_valid _ _ _ hg.1.1.1 hg.1.1.2 hg.1.2 hg.2
    | none =>
      rw [hnum] at h
      simp only at h
      cases hmn : parseMonthNameFirst s.data with
      | some t =>
        obtain ⟨w, dd, y⟩ := t
        rw [hmn] at h
        simp only at h
        cases hmw : monthFromWord w with
        | none => rw [hmw] at h; exact absurd h (by simp)
        | some m =>
          rw [hmw] at h
          simp only at h
          split_ifs at h with hg
          · cases h
            simp only [Bool.and_eq_true, decide_eq_true_eq] at hg
            obtain ⟨hm1, hm2⟩ := monthFromWord_bounds hmw
            exact rollDate_valid _ _ _ hm1 hm2 hg.1 hg.2
      | none =>
        rw [hmn] at h
        simp only at h
        cases hdf : parseDayFirst s.data with
        | some t =>
          obtain ⟨w, dd, y⟩ := t
          rw [hdf] at h
          simp only at h
          cases hmw : monthFromWord w with
          | none => rw [hmw] at h; exact absurd h (by simp)
          | some m =>
            rw [hmw] at h
            simp only at h
            split_ifs at h with hg
            · cases h
              simp only [Bool.and_eq_true, decide_eq_true_eq] at hg
              obtain ⟨hm1, hm2⟩ := monthFromWord_bounds hmw
              exact rollDate_valid _ _ _ hm1 hm2 hg.1 hg.2
        | none => rw [hdf] at h; exact absurd h (by simp)

theorem tryDatePatterns_valid :
    ∀ (ps : List (String → Option String)) (s : String) (d : CivilDate),
      tryDatePatterns ps s = some d → ValidDate d
  | [], _, _, h => by simp [tryDatePatterns] at h
  | p :: ps, s, d, h => by
    unfold tryDatePatterns at h
    cases hp : p s with
    | none => rw [hp] at h; exact tryDatePatterns_valid ps s d h
    | some m =>
      rw [hp] at h
      simp only at h
      cases hj : jsNewDate m with
      | none => rw [hj] at h; exact tryDatePatterns_valid ps s d h
      | some d' =>
        rw [hj] at h
        cases h
        exact jsNewDate_valid hj

/-- C1 counterexample.  The claim states that a date text whose calendar
value is invalid, such as "2/29/2023", parses to null.  In the code the
matched numeric date is handed to the engine's `Date` constructor, whose
legacy parser rolls the overflowing day into the next month: the result
is March 1, 2023 — a non-null value. -/
theorem c1_parseDate_feb29_counterexample :
    parseDate "2/29/2023" = some ⟨2023, 3, 1⟩ ∧ parseDate "2/29/2023" ≠ none := by
  constructor
  · rfl
  · intro h
    rw [show parseDate "2/29/2023" = some ⟨2023, 3, 1⟩ from rfl] at h
    cases h

/-- C1 (amended).  `parseDate` returns either a calendar-valid date or
null: empty text gives null, text matched by none of the four patterns
gives null, and every non-null result is a calendar-valid date.  The
original claim's further demand — that a matched numeric date whose
calendar value is invalid (e.g. "2/29/2023") also gives null — fails:
the underlying date constructor rolls the day over instead
(`c1_parseDate_feb29_counterexample`). -/
theorem c1_parseDate_valid_or_null (s : String) :
    (s = "" → parseDate s = none) ∧
    (matchP1 s = none → matchP2 s = none → matchP3 s = none → matchP4 s = none →
      parseDate s = none) ∧
    (∀ d, parseDate s = some d → ValidDate d) := by
  refine ⟨fun hs => by simp [parseDate, hs], fun h1 h2 h3 h4 => ?_, fun d hd => ?_⟩
  · unfold parseDate
    split_ifs
    · rfl
    · simp [tryDatePatterns, h1, h2, h3, h4]
  · unfold parseDate at hd
    split_ifs at hd
    exact tryDatePatterns_valid _ _ _ hd

/-- Witness for `c1_parseDate_valid_or_null`: on "hello world" no
pattern matches and the result is null; on "December 25, 2025" the
result is a valid date. -/
theorem c1_parseDate_valid_or_null_witness :
    parseDate "hello world" = none ∧ ValidDate ⟨2025, 12, 25⟩ := by
  constructor
  · exact (c1_parseDate_valid_or_null "hello world").2.1 (by decide) (by decide)
      (by decide) (by decide)
  · exact (c1_parseDate_valid_or_null "December 25, 2025").2.2 ⟨2025, 12, 25⟩ (by rfl)

/-! ## Numeric parsing and the grade percentage

`(\d+\.?\d*)` matches (extractors.ts lines 118-119, MoodleScraper.ts
lines 396-397) and the two percentage computations (extractors.ts line
123 and MoodleScraper.ts line 401). -/

/-- `(\d+\.?\d*)` anchored at the current position: a greedy digit run,
an optional dot, a greedy second digit run.  Nothing follows in the
pattern, so no backtracking can apply. -/
def numAt (l : List Char) : Option (List Char) :=
  match l with
  | [] => none
  | c :: _ =>
    if c.isDigit then
      let r1 := l.takeWhile Char.isDigit
      match l.drop r1.length with
      | '.' :: rest2 => some (r1 ++ '.' :: rest2.takeWhile Char.isDigit)
      | _ => some r1
    else none

/-- `text.match(/(\d+\.?\d*)/)?.[1]`. -/
def matchNum (s : String) : Option String :=
  (firstSome numAt s.data).map String.mk

/-- The fractional digits of a numeric text: what follows a dot after
the leading digit run. -/
def fracPart (s : String) : List Char :=
  match s.data.drop (s.data.takeWhile Char.isDigit).length with
  | '.' :: f => f
  | _ => []

/-- The exact rational value of a string of digits with at most one dot
(the only strings the scraper's numeric matches produce). -/
def exactFloatVal (s : String) : ℚ :=
  (digitsVal (s.data.takeWhile Char.isDigit) : ℚ) +
    (digitsVal (fracPart s) : ℚ) / (10 : ℚ) ^ (fracPart s).length

/-- A JavaScript number as the grade computation can produce it: a
finite value (kept exact), positive Infinity, or NaN.  Negative values,
negative zero and -Infinity are unreachable here (every parsed text is
a non-negative numeral). -/
inductive JSNum where
  | num : ℚ → JSNum
  | inf : JSNum
  | nan : JSNum
deriving DecidableEq, Repr

/-- The IEEE-754 double overflow threshold: an exact value at or above
`2^1024 - 2^970` (the midpoint above the largest finite double) rounds
to Infinity under round-to-nearest-even. -/
def dblOverflowBound : ℚ := ((2 ^ 1024 - 2 ^ 970 : ℕ) : ℚ)

/-- Whether an exact non-negative value saturates to Infinity as a
double. -/
def dblOverflow (q : ℚ) : Bool := decide (dblOverflowBound ≤ q)

/-- `parseFloat` on a matched numeral: the exact value while it is in
the double range, Infinity once the numeral overflows the range (about
309 digits).  In-range finite values are kept exact; their sub-ulp
rounding cannot produce NaN or Infinity in these computations and is
not modelled. -/
def jsParseFloat (s : String) : JSNum :=
  if dblOverflow (exactFloatVal s) then .inf else .num (exactFloatVal s)

/-- IEEE-754 division on the values reachable here (all non-negative):
NaN propagates, Infinity/Infinity is NaN, Infinity/finite is Infinity,
finite/Infinity is 0, finite/0 is NaN (0/0) or Infinity, and a finite
quotient saturates to Infinity at the overflow threshold. -/
def jsDiv : JSNum → JSNum → JSNum
  | .nan, _ => .nan
  | .num _, .nan => .nan
  | .inf, .nan => .nan
  | .inf, .inf => .nan
  | .inf, .num _ => .inf
  | .num _, .inf => .num 0
  | .num a, .num b =>
    if b = 0 then (if a = 0 then .nan else .inf)
    else if dblOverflow (a / b) then .inf else .num (a / b)

/-- IEEE-754 multiplication by a positive finite literal (100 here),
with overflow saturation. -/
def jsMulNum : JSNum → ℚ → JSNum
  | .nan, _ => .nan
  | .inf, c => if c = 0 then .nan else .inf
  | .num a, c => if dblOverflow (a * c) then .inf else .num (a * c)

/-- The `maxGrade > 0` comparison: false for NaN (every comparison with
NaN is false), true for Infinity, the numeric comparison otherwise. -/
def jsGtZero : JSNum → Bool
  | .nan => false
  | .inf => true
  | .num a => decide (0 < a)

/-- `gradeValue` (extractors.ts line 121, MoodleScraper.ts line 399):
the first numeric match of the grade text, else 0. -/
def gradeValueOf (s : String) : JSNum :=
  match matchNum s with | some m => jsParseFloat m | none => .num 0

/-- `maxGradeValue` (extractors.ts line 122, MoodleScraper.ts line 400):
the first numeric match of the maxGrade text, else 100. -/
def maxGradeValueOf (s : String) : JSNum :=
  match matchNum s with | some m => jsParseFloat m | none => .num 100

/-- The percentage computation of `extractGrade` (extractors.ts line
123): a non-positive maximum yields the number 0 — not null. -/
def extractGrade_percentage (gradeText maxGradeText : String) : JSNum :=
  if jsGtZero (maxGradeValueOf maxGradeText) then
    jsMulNum (jsDiv (gradeValueOf gradeText) (maxGradeValueOf maxGradeText)) 100
  else .num 0

/-- The percentage computation of `MoodleScraper.extractGradeData`
(MoodleScraper.ts line 401): a non-positive maximum yields null. -/
def extractGradeData_percentage (gradeText maxGradeText : String) : Option JSNum :=
  if jsGtZero (maxGradeValueOf maxGradeText) then
    some (jsMulNum (jsDiv (gradeValueOf gradeText) (maxGradeValueOf maxGradeText)) 100)
  else none

/-! Lemmas about the number model. -/

theorem exactFloatVal_nonneg (s : String) : 0 ≤ exactFloatVal s := by
  unfold exactFloatVal
  positivity

theorem jsParseFloat_num_nonneg {s : String} {q : ℚ}
    (h : jsParseFloat s = .num q) : 0 ≤ q := by
  unfold jsParseFloat at h
  split_ifs at h
  rw [JSNum.num.injEq] at h
  rw [← h]
  exact exactFloatVal_nonneg s

theorem jsParseFloat_ne_nan (s : String) : jsParseFloat s ≠ .nan := by
  unfold jsParseFloat
  split_ifs <;> intro h <;> cases h

theorem dblOverflow_eq_false {q : ℚ} (h : q < dblOverflowBound) :
    dblOverflow q = false := by
  unfold dblOverflow
  exact decide_eq_false (not_le.mpr h)

theorem dblOverflow_eq_true {q : ℚ} (h : dblOverflowBound ≤ q) :
    dblOverflow q = true := by
  unfold dblOverflow
  exact decide_eq_true h

theorem dblOverflowBound_pos : (0 : ℚ) < dblOverflowBound := by
  unfold dblOverflowBound
  norm_num

theorem dblOverflow_zero : dblOverflow 0 = false :=
  dblOverflow_eq_false dblOverflowBound_pos

theorem jsGtZero_num_iff {q : ℚ} : jsGtZero (.num q) = true ↔ 0 < q := by
  unfold jsGtZero
  exact decide_eq_true_iff

theorem exactFloatVal_zero : exactFloatVal "0" = 0 := by
  have h1 : "0".data.takeWhile Char.isDigit = ['0'] := rfl
  have h2 : fracPart "0" = [] := rfl
  unfold exactFloatVal
  rw [h1, h2, show digitsVal ['0'] = 0 from rfl, show digitsVal [] = 0 from rfl]
  norm_num

theorem jsParseFloat_zero : jsParseFloat "0" = .num 0 := by
  unfold jsParseFloat
  rw [exactFloatVal_zero,
    dblOverflow_eq_false (by unfold dblOverflowBound; norm_num)]
  rfl

theorem exactFloatVal_100 : exactFloatVal "100" = 100 := by
  have h1 : "100".data.takeWhile Char.isDigit = ['1', '0', '0'] := rfl
  have h2 : fracPart "100" = [] := rfl
  unfold exactFloatVal
  rw [h1, h2, show digitsVal ['1', '0', '0'] = 100 from rfl,
    show digitsVal [] = 0 from rfl]
  norm_num

theorem jsParseFloat_100 : jsParseFloat "100" = .num 100 := by
  unfold jsParseFloat
  rw [exactFloatVal_100,
    dblOverflow_eq_false (by unfold dblOverflowBound; norm_num)]
  rfl

theorem maxGradeValueOf_of_match {m t : String} (h : matchNum m = some t) :
    maxGradeValueOf m = jsParseFloat t := by
  unfold maxGradeValueOf
  rw [h]

theorem maxGradeValueOf_of_nomatch {m : String} (h : matchNum m = none) :
    maxGradeValueOf m = .num 100 := by
  unfold maxGradeValueOf
  rw [h]

theorem maxGradeValueOf_zero_str : maxGradeValueOf "0" = .num 0 := by
  rw [maxGradeValueOf_of_match (show matchNum "0" = some "0" from rfl), jsParseFloat_zero]

theorem gradeValueOf_aplus : gradeValueOf "A+" = .num 0 := by
  unfold gradeValueOf
  rw [show matchNum "A+" = none from rfl]

theorem gradeValueOf_num_nonneg {g : String} {q : ℚ}
    (h : gradeValueOf g = .num q) : 0 ≤ q := by
  unfold gradeValueOf at h
  cases hm : matchNum g with
  | some t =>
    rw [hm] at h
    exact jsParseFloat_num_nonneg h
  | none =>
    rw [hm] at h
    rw [JSNum.num.injEq] at h
    rw [← h]

theorem gradeValueOf_ne_nan (g : String) : gradeValueOf g ≠ .nan := by
  unfold gradeValueOf
  cases matchNum g with
  | some t => exact jsParseFloat_ne_nan t
  | none => intro h; cases h

theorem maxGradeValueOf_ne_nan (m : String) : maxGradeValueOf m ≠ .nan := by
  unfold maxGradeValueOf
  cases matchNum m with
  | some t => exact jsParseFloat_ne_nan t
  | none => intro h; cases h

/-- `maxGradeValueOf` finite values are non-negative. -/
theorem maxGradeValueOf_num_nonneg {m : String} {q : ℚ}
    (h : maxGradeValueOf m = .num q) : 0 ≤ q := by
  unfold maxGradeValueOf at h
  cases hm : matchNum m with
  | some t =>
    rw [hm] at h
    exact jsParseFloat_num_nonneg h
  | none =>
    rw [hm] at h
    rw [JSNum.num.injEq] at h
    rw [← h]
    norm_num

/-- Finite results of the guarded percentage pipeline are non-negative. -/
theorem percentage_num_nonneg {g m : String} {q : ℚ}
    (h : jsMulNum (jsDiv (gradeValueOf g) (maxGradeValueOf m)) 100 = .num q) :
    0 ≤ q := by
  cases hg : gradeValueOf g with
  | nan => exact absurd hg (gradeValueOf_ne_nan g)
  | inf =>
    rw [hg] at h
    cases hm : maxGradeValueOf m with
    | nan => exact absurd hm (maxGradeValueOf_ne_nan m)
    | inf => rw [hm] at h; cases h
    | num b =>
      rw [hm] at h
      simp only [jsDiv, jsMulNum] at h
      rw [if_neg (show ¬(100 : ℚ) = 0 by norm_num)] at h
      cases h
  | num a =>
    have ha : 0 ≤ a := gradeValueOf_num_nonneg hg
    rw [hg] at h
    cases hm : maxGradeValueOf m with
    | nan => exact absurd hm (maxGradeValueOf_ne_nan m)
    | inf =>
      rw [hm] at h
      simp only [jsDiv, jsMulNum] at h
      by_cases hov : dblOverflow (0 * 100) = true
      · rw [if_pos hov] at h; cases h
      · rw [if_neg hov] at h
        rw [JSNum.num.injEq] at h
        rw [← h]
        norm_num
    | num b =>
      rw [hm] at h
      simp only [jsDiv] at h
      by_cases hb : b = 0
      · rw [if_pos hb] at h
        by_cases ha0 : a = 0
        · rw [if_pos ha0] at h; cases h
        · rw [if_neg ha0] at h
          simp only [jsMulNum] at h
          rw [if_neg (show ¬(100 : ℚ) = 0 by norm_num)] at h
          cases h
      · rw [if_neg hb] at h
        by_cases hov : dblOverflow (a / b) = true
        · rw [if_pos hov] at h
          simp only [jsMulNum] at h
          rw [if_neg (show ¬(100 : ℚ) = 0 by norm_num)] at h
          cases h
        · rw [if_neg hov] at h
          simp only [jsMulNum] at h
          by_cases hov2 : dblOverflow (a / b * 100) = true
          · rw [if_pos hov2] at h; cases h
          · rw [if_neg hov2] at h
            rw [JSNum.num.injEq] at h
            rw [← h]
            rcases lt_or_le 0 b with hbpos | hbneg
            · exact mul_nonneg (div_nonneg ha (le_of_lt hbpos)) (by norm_num)
            · have hb' : b < 0 := lt_of_le_of_ne hbneg hb
              rcases eq_or_lt_of_le ha with ha0 | hapos
              · rw [← ha0]
                norm_num
              · exact absurd (maxGradeValueOf_num_nonneg hm) (not_le.mpr hb')

/-- The 310-digit numeral whose `parseFloat` overflows the double
range. -/
def overflowDigits : String := String.mk (List.replicate 310 '1')

set_option maxRecDepth 8000 in
theorem jsParseFloat_overflowDigits : jsParseFloat overflowDigits = .inf := by
  have htw : overflowDigits.data.takeWhile Char.isDigit =
      List.replicate 310 '1' := by decide
  have hfr : fracPart overflowDigits = [] := by decide
  have hN : (2 ^ 1024 - 2 ^ 970 : ℕ) ≤ digitsVal (List.replicate 310 '1') := by decide
  have hval : exactFloatVal overflowDigits =
      (digitsVal (List.replicate 310 '1') : ℚ) := by
    unfold exactFloatVal
    rw [htw, hfr, show digitsVal ([] : List Char) = 0 from rfl]
    norm_num
  unfold jsParseFloat
  rw [hval, dblOverflow_eq_true (by unfold dblOverflowBound; exact_mod_cast hN)]
  rfl

set_option maxRecDepth 8000 in
theorem matchNum_overflowDigits : matchNum overflowDigits = some overflowDigits := by
  decide

/-- C2 counterexample.  The claim states the percentage is null
whenever the maxGrade text fails to parse or parses to 0, and is never
NaN or Infinity.  In the code: an unparseable maxGrade defaults the
denominator to 100, so ("A+", "Pass/Fail") yields percentage 0 (not
null) in `extractGradeData`; `extractGrade` yields the number 0 (its
percentage field is not nullable) when maxGrade parses to 0; and a
310-digit grade numeral parses to Infinity and passes the
`maxGrade > 0` guard, making the percentage Infinity — or NaN when the
maxGrade text overflows as well. -/
theorem c2_percentage_counterexample :
    extractGradeData_percentage "A+" "Pass/Fail" = some (.num 0) ∧
    extractGradeData_percentage "A+" "Pass/Fail" ≠ none ∧
    extractGrade_percentage "5" "0" = .num 0 ∧
    extractGradeData_percentage overflowDigits "100" = some .inf ∧
    extractGradeData_percentage overflowDigits overflowDigits = some .nan := by
  have hmax100 : maxGradeValueOf "100" = .num 100 := by
    rw [maxGradeValueOf_of_match (show matchNum "100" = some "100" from rfl),
      jsParseFloat_100]
  have hgradeOv : gradeValueOf overflowDigits = .inf := by
    unfold gradeValueOf
    rw [matchNum_overflowDigits]
    exact jsParseFloat_overflowDigits
  have hmaxOv : maxGradeValueOf overflowDigits = .inf := by
    rw [maxGradeValueOf_of_match matchNum_overflowDigits, jsParseFloat_overflowDigits]
  refine ⟨?_, ?_, ?_, ?_, ?_⟩
  · have hdiv : jsDiv (.num 0) (.num 100) = .num 0 := by
      simp only [jsDiv]
      rw [if_neg (show ¬(100 : ℚ) = 0 by norm_num), show (0 : ℚ) / 100 = 0 by norm_num,
        dblOverflow_zero]
      rfl
    have hmul : jsMulNum (.num 0) 100 = .num 0 := by
      simp only [jsMulNum]
      rw [show (0 : ℚ) * 100 = 0 by norm_num, dblOverflow_zero]
      rfl
    unfold extractGradeData_percentage
    rw [maxGradeValueOf_of_nomatch (show matchNum "Pass/Fail" = none from rfl),
      gradeValueOf_aplus, if_pos (jsGtZero_num_iff.mpr (by norm_num)), hdiv, hmul]
  · intro h
    unfold extractGradeData_percentage at h
    rw [maxGradeValueOf_of_nomatch (show matchNum "Pass/Fail" = none from rfl)] at h
    rw [if_pos (jsGtZero_num_iff.mpr (by norm_num))] at h
    cases h
  · unfold extractGrade_percentage
    rw [maxGradeValueOf_zero_str,
      if_neg (show ¬(jsGtZero (.num 0) = true) by
        rw [jsGtZero_num_iff]; norm_num)]
  · unfold extractGradeData_percentage
    rw [hmax100, hgradeOv, if_pos (jsGtZero_num_iff.mpr (by norm_num))]
    simp only [jsDiv, jsMulNum]
    rw [if_neg (show ¬(100 : ℚ) = 0 by norm_num)]
  · unfold extractGradeData_percentage
    rw [hmaxOv, hgradeOv]
    rfl

/-- C2 (amended).  In `extractGradeData` the percentage is null exactly
when the maxGrade text has a numeric match parsing to a finite value
≤ 0; an unparseable maxGrade defaults the denominator to 100, so the
percentage is a value, not null.  In `extractGrade` the percentage is
never null: a non-positive finite parsed maximum yields the number 0.
Every finite produced percentage is non-negative, and when both parses
are finite (the maximum positive) and the quotient stays inside the
IEEE-754 double range, the percentage is exactly the finite ratio times
100.  The claim's "never NaN or Infinity" is false: a numeral long
enough to overflow the double range parses to Infinity and passes the
`maxGrade > 0` guard (see `c2_percentage_counterexample`). -/
theorem c2_percentage_guarded (g m : String) :
    (extractGradeData_percentage g m = none ↔
      ∃ t q, matchNum m = some t ∧ jsParseFloat t = .num q ∧ q ≤ 0) ∧
    (matchNum m = none → extractGradeData_percentage g m ≠ none) ∧
    (∀ q, extractGradeData_percentage g m = some (.num q) → 0 ≤ q) ∧
    (∀ t q, matchNum m = some t → jsParseFloat t = .num q → q ≤ 0 →
      extractGrade_percentage g m = .num 0) ∧
    (∀ qa qb, gradeValueOf g = .num qa → maxGradeValueOf m = .num qb → 0 < qb →
      dblOverflow (qa / qb) = false → dblOverflow (qa / qb * 100) = false →
      extractGradeData_percentage g m = some (.num (qa / qb * 100)) ∧
        0 ≤ qa / qb * 100) := by
  refine ⟨?_, ?_, ?_, ?_, ?_⟩
  · unfold extractGradeData_percentage
    by_cases hguard : jsGtZero (maxGradeValueOf m) = true
    · rw [if_pos hguard]
      constructor
      · intro h; cases h
      · rintro ⟨t, q, ht, hj, hle⟩
        rw [maxGradeValueOf_of_match ht, hj] at hguard
        rw [jsGtZero_num_iff] at hguard
        exact absurd hguard (not_lt.mpr hle)
    · rw [if_neg hguard]
      refine ⟨fun _ => ?_, fun _ => rfl⟩
      cases hm : matchNum m with
      | none =>
        rw [maxGradeValueOf_of_nomatch hm] at hguard
        exact absurd (jsGtZero_num_iff.mpr (by norm_num)) hguard
      | some t =>
        cases hj : jsParseFloat t with
        | nan => exact absurd hj (jsParseFloat_ne_nan t)
        | inf =>
          rw [maxGradeValueOf_of_match hm, hj] at hguard
          exact absurd rfl hguard
        | num q =>
          refine ⟨t, q, rfl, hj, ?_⟩
          rw [maxGradeValueOf_of_match hm, hj, jsGtZero_num_iff] at hguard
          exact not_lt.mp hguard
  · intro hm h
    unfold extractGradeData_percentage at h
    rw [maxGradeValueOf_of_nomatch hm,
      if_pos (jsGtZero_num_iff.mpr (by norm_num))] at h
    cases h
  · intro q h
    unfold extractGradeData_percentage at h
    split_ifs at h
    rw [Option.some.injEq] at h
    exact percentage_num_nonneg h
  · intro t q ht hj hle
    unfold extractGrade_percentage
    rw [maxGradeValueOf_of_match ht, hj,
      if_neg (show ¬(jsGtZero (.num q) = true) by
        rw [jsGtZero_num_iff]; exact not_lt.mpr hle)]
  · intro qa qb hga hmb hpos hov1 hov2
    have hqa : 0 ≤ qa := gradeValueOf_num_nonneg hga
    constructor
    · unfold extractGradeData_percentage
      rw [hga, hmb, if_pos (jsGtZero_num_iff.mpr hpos)]
      simp only [jsDiv]
      rw [if_neg (ne_of_gt hpos), hov1, if_neg Bool.false_ne_true]
      simp only [jsMulNum]
      rw [hov2]
      rfl
    · exact mul_nonneg (div_nonneg hqa (le_of_lt hpos)) (by norm_num)

/-- Witness for `c2_percentage_guarded` at ("5", "0") and
("A+", "Pass/Fail"). -/
theorem c2_percentage_guarded_witness :
    extractGrade_percentage "5" "0" = .num 0 ∧
    extractGradeData_percentage "A+" "Pass/Fail" ≠ none :=
  ⟨(c2_percentage_guarded "5" "0").2.2.2.1 "0" 0 rfl jsParseFloat_zero (le_refl 0),
   (c2_percentage_guarded "A+" "Pass/Fail").2.1 rfl⟩

/-! ## The DOM element model

An element snapshot as the extractors see it: `textContent` (nullable),
the anchor `href`, `className`, an image `src`, the inline style width,
and `querySelector` answers for the fixed selector strings the code
uses (returning the first matching descendant or null). -/

/-- A rendered DOM element snapshot. -/
inductive DomNode where
  | mk : Option String → String → String → String → String →
         (String → Option DomNode) → DomNode

/-- `textContent` (null when absent). -/
def DomNode.text : DomNode → Option String
  | .mk t _ _ _ _ _ => t

/-- `href` of an anchor; the empty string models `undefined` (the source
reads it as `?.href || ''`). -/
def DomNode.href : DomNode → String
  | .mk _ h _ _ _ _ => h

/-- `className`. -/
def DomNode.className : DomNode → String
  | .mk _ _ c _ _ _ => c

/-- `src` of an image; empty models `undefined` (read as `.src || ''`). -/
def DomNode.src : DomNode → String
  | .mk _ _ _ s _ _ => s

/-- `style.width`; empty models an unset width. -/
def DomNode.styleWidth : DomNode → String
  | .mk _ _ _ _ w _ => w

/-- `querySelector` scoped to this element. -/
def DomNode.q : DomNode → String → Option DomNode
  | .mk _ _ _ _ _ f => f

/-- An element with no content at all: no text, no attributes, and no
descendant matches any selector. -/
def emptyElem : DomNode := .mk none "" "" "" "" fun _ => none

/-! JavaScript string helpers used by the extractors. -/

/-- `String.prototype.trim`. -/
def jsTrim (s : String) : String := String.mk (stripWsEnds s.data)

/-- `String.prototype.toLowerCase` (ASCII, which is all the source
compares). -/
def jsToLower (s : String) : String := String.mk (s.data.map Char.toLower)

/-- Substring containment over character lists. -/
def listContainsSub (needle : List Char) : List Char → Bool
  | [] => needle.isEmpty
  | c :: rest => needle.isPrefixOf (c :: rest) || listContainsSub needle rest

/-- `hay.includes(needle)`. -/
def jsIncludes (hay needle : String) : Bool := listContainsSub needle.data hay.data

/-- `node?.textContent?.trim() || dflt`: the trimmed text if the node
exists and has non-empty trimmed text, else the default. -/
def textOrDefault (n : Option DomNode) (dflt : String) : String :=
  match n with
  | some nd =>
    match nd.text with
    | some t => if jsTrim t = "" then dflt else jsTrim t
    | none => dflt
  | none => dflt

/-- `node?.textContent?.trim() || null`. -/
def textOrNull (n : Option DomNode) : Option String :=
  match n with
  | some nd =>
    match nd.text with
    | some t => if jsTrim t = "" then none else some (jsTrim t)
    | none => none
  | none => none

/-- `(el.querySelector(sel) || el)?.href || ''`: the href of the first
matching descendant, else of the element itself. -/
def hrefOrEmpty (el : DomNode) (sel : String) : String :=
  match el.q sel with
  | some ln => ln.href
  | none => el.href

/-- `url.split('.')` with a single-character separator, as in
JavaScript: splitting the empty string gives `[""]`. -/
def splitOnDot : List Char → List (List Char)
  | [] => [[]]
  | c :: rest =>
    if c = '.' then [] :: splitOnDot rest
    else
      match splitOnDot rest with
      | [] => [[c]]
      | h :: t => (c :: h) :: t

/-! Further regex matchers used by the extractors. -/

/-- `/id=(\d+)/` anchored at the current position. -/
def idAt (l : List Char) : Option (List Char) :=
  match l with
  | 'i' :: 'd' :: '=' :: rest =>
    if (rest.takeWhile Char.isDigit).isEmpty then none
    else some (rest.takeWhile Char.isDigit)
  | _ => none

/-- `url.match(/id=(\d+)/)?.[1]`. -/
def matchId (s : String) : Option String :=
  (firstSome idAt s.data).map String.mk

/-- `/(\d+)%/` anchored at the current position: a digit run followed by
a percent sign (a shorter run would end at a digit, so the maximal run
is the only candidate). -/
def pctAt (l : List Char) : Option (List Char) :=
  match l with
  | c :: _ =>
    if c.isDigit then
      match l.drop (l.takeWhile Char.isDigit).length with
      | '%' :: _ => some (l.takeWhile Char.isDigit)
      | _ => none
    else none
  | [] => none

/-- `text.match(/(\d+)%/)?.[1]`. -/
def matchPct (s : String) : Option String :=
  (firstSome pctAt s.data).map String.mk

/-- `/(\d+\.?\d*)[\s\/]*(\d+\.?\d*)?/` anchored at the current position:
the grade and the optional maximum.  The separator run is maximal and
the optional second group matches right after it or not at all. -/
def gradePairAt (l : List Char) : Option (List Char × Option (List Char)) :=
  match numAt l with
  | none => none
  | some g1 =>
    match numAt ((l.drop g1.length).drop
        ((l.drop g1.length).takeWhile fun c => isWs c || c = '/').length) with
    | some g2 => some (g1, some g2)
    | none => some (g1, none)

/-- `gradeText.match(/(\d+\.?\d*)[\s\/]*(\d+\.?\d*)?/)`, groups 1 and 2. -/
def matchGradePair (s : String) : Option (String × Option String) :=
  (firstSome gradePairAt s.data).map fun p => (String.mk p.1, p.2.map String.mk)

/-! ## Record types -/

/-- `submissionStatus` of an assignment. -/
inductive SubmissionStatus where
  | submitted
  | not_submitted
  | late
deriving DecidableEq, Repr

/-- The `Assignment` record (src/types.ts), with dates as civil dates. -/
structure AssignmentRec where
  id : String
  title : String
  description : String
  dueDate : Option CivilDate
  submissionStatus : SubmissionStatus
  maxGrade : JSNum
  currentGrade : Option JSNum
  url : String

/-- The `Grade` record as produced by `extractGrade` (extractors.ts):
`itemName` is nullable and `percentage` is a plain number. -/
structure GradeRecE where
  itemName : Option String
  grade : String
  maxGrade : String
  percentage : JSNum
  feedback : Option String
  dateModified : Option CivilDate

/-- The `Grade` record as produced by `extractGradeData`
(MoodleScraper.ts): `itemName` is defaulted and `percentage` nullable. -/
structure GradeRecS where
  itemName : String
  grade : String
  maxGrade : String
  percentage : Option JSNum
  feedback : Option String
  dateModified : Option CivilDate

/-- The `MoodleFile` record. -/
structure FileRec where
  name : String
  url : String
  size : String
  type : String
  downloadUrl : String

/-- The `ZybookIntegration` record. -/
structure ZybookRec where
  title : String
  url : String
  dueDate : Option CivilDate
  completionStatus : String
  progress : Option ℕ

/-! ## The extractors of extractors.ts -/

/-- The due-date logic shared by the extractors (extractors.ts lines
30-42 and 251-262): trimmed text, slash/dash pattern match, `Date`
construction guarded by `isNaN`. -/
def dueDateFrom (n : Option DomNode) : Option CivilDate :=
  match n with
  | some nd =>
    match nd.text with
    | some t =>
      if jsTrim t = "" then none
      else
        match matchP1 (jsTrim t) with
        | some mt => jsNewDate mt
        | none => none
    | none => none
  | none => none

/-- The submission-status logic (extractors.ts lines 45-55):
lower-cased raw text, `includes` checks, submitted before late. -/
def statusFrom (n : Option DomNode) : SubmissionStatus :=
  match n with
  | some nd =>
    match nd.text with
    | some t =>
      if jsIncludes (jsToLower t) "submitted" || jsIncludes (jsToLower t) "complete" then
        .submitted
      else if jsIncludes (jsToLower t) "late" || jsIncludes (jsToLower t) "overdue" then
        .late
      else .not_submitted
    | none => .not_submitted
  | none => .not_submitted

/-- The grade pair logic (extractors.ts lines 62-73): returns
(maxGrade, currentGrade), defaulting to (0, null). -/
def gradeFrom (n : Option DomNode) : JSNum × Option JSNum :=
  match n with
  | some nd =>
    match matchGradePair (textOrDefault (some nd) "") with
    | some (g1, some g2) => (jsParseFloat g2, some (jsParseFloat g1))
    | some (g1, none) => (.num 100, some (jsParseFloat g1))
    | none => (.num 0, none)
  | none => (.num 0, none)

/-- The evaluate callback of `extractAssignment` (extractors.ts lines
14-96); `rnd` is the `Math.random().toString()` draw used when the URL
carries no id. -/
def assignmentFromElement (el : DomNode) (rnd : String) : AssignmentRec :=
  { id := (matchId (hrefOrEmpty el "a[href*=\"assign\"]")).getD rnd
    title := textOrDefault (el.q ".instancename, .activity-name, h3, .assignment-title")
      "Unknown Assignment"
    description := textOrDefault (el.q ".assignment-description, .description, .summary") ""
    dueDate := dueDateFrom (el.q ".due-date, .duedate, .assignment-due, [class*=\"due\"]")
    submissionStatus := statusFrom (el.q ".status, .submission-status, [class*=\"status\"]")
    maxGrade := (gradeFrom (el.q ".grade, .points, .score")).1
    currentGrade := (gradeFrom (el.q ".grade, .points, .score")).2
    url := hrefOrEmpty el "a[href*=\"assign\"]" }

/-- `extractAssignment` (extractors.ts lines 14-96): null when the
element evaluation throws (detached element), else the record. -/
def extractAssignment (e : Except Unit (DomNode × String)) : Option AssignmentRec :=
  match e with
  | .error _ => none
  | .ok (el, rnd) => some (assignmentFromElement el rnd)

/-- The raw-text date logic of `extractGrade` (extractors.ts lines
130-141): the whole trimmed text is handed to `Date`, guarded by
`isNaN`. -/
def rawDateFrom (n : Option DomNode) : Option CivilDate :=
  match n with
  | some nd =>
    match nd.text with
    | some t => if jsTrim t = "" then none else jsNewDate (jsTrim t)
    | none => none
  | none => none

/-- The evaluate callback of `extractGrade` (extractors.ts lines
103-162). -/
def gradeFromElement (el : DomNode) : GradeRecE :=
  { itemName := textOrNull (el.q ".gradeitemheader, .item-name, .gradeitem, td:first-child")
    grade := textOrDefault (el.q ".grade, .points, .percentage, .finalgrade") "0"
    maxGrade := textOrDefault (el.q ".max-grade, .total-points, .out-of") "0"
    percentage := extractGrade_percentage
      (textOrDefault (el.q ".grade, .points, .percentage, .finalgrade") "0")
      (textOrDefault (el.q ".max-grade, .total-points, .out-of") "0")
    feedback := textOrNull (el.q ".feedback, .comment, .grade-feedback")
    dateModified := rawDateFrom (el.q ".date-modified, .last-modified, .timestamp, .grade-date") }

/-- `extractGrade` (extractors.ts lines 103-162). -/
def extractGrade (e : Except Unit DomNode) : Option GradeRecE :=
  match e with
  | .error _ => none
  | .ok el => some (gradeFromElement el)

/-- The icon fallback of `extractFile` (extractors.ts lines 199-213):
fixed vocabulary over the icon src and class. -/
def iconOverride (icon : Option DomNode) (ty : String) : String :=
  match icon with
  | none => ty
  | some ic =>
    if jsIncludes ic.src "pdf" || jsIncludes ic.className "pdf" then "pdf"
    else if jsIncludes ic.src "document" || jsIncludes ic.className "document" then "document"
    else if jsIncludes ic.src "spreadsheet" || jsIncludes ic.className "spreadsheet" then
      "spreadsheet"
    else if jsIncludes ic.src "presentation" || jsIncludes ic.className "presentation" then
      "presentation"
    else if jsIncludes ic.src "image" || jsIncludes ic.className "image" then "image"
    else if jsIncludes ic.src "video" || jsIncludes ic.className "video" then "video"
    else if jsIncludes ic.src "audio" || jsIncludes ic.className "audio" then "audio"
    else ty

/-- The type inference of `extractFile` (extractors.ts lines 184-221):
explicit type text first; else the lower-cased part after the final "."
of the whole URL when the URL splits into more than one piece, "unknown"
otherwise; then the icon fallback when still empty or "unknown"; a final
"unknown" default. -/
def fileTypeFrom (typeText url : String) (icon : Option DomNode) : String :=
  let ty1 :=
    if typeText = "" ∧ url ≠ "" then
      if (splitOnDot url.data).length > 1 then
        if String.mk (((splitOnDot url.data).getLastD []).map Char.toLower) = "" then "unknown"
        else String.mk (((splitOnDot url.data).getLastD []).map Char.toLower)
      else "unknown"
    else typeText
  let ty2 := if ty1 = "" then "unknown" else ty1
  let ty3 := if ty2 = "" ∨ ty2 = "unknown" then iconOverride icon ty2 else ty2
  if ty3 = "" then "unknown" else ty3

/-- The evaluate callback of `extractFile` (extractors.ts lines
169-230). -/
def fileFromElement (el : DomNode) : FileRec :=
  { name := textOrDefault (el.q ".instancename, .resource-name, .filename, .fp-filename")
      "Unknown File"
    url := hrefOrEmpty el "a[href*=\"resource\"], a[href*=\"pluginfile\"], a[href*=\"folder\"]"
    size := textOrDefault (el.q ".filesize, .file-size, .size") "Unknown size"
    type := fileTypeFrom (textOrDefault (el.q ".filetype, .file-type, .mimetype") "")
      (hrefOrEmpty el "a[href*=\"resource\"], a[href*=\"pluginfile\"], a[href*=\"folder\"]")
      (el.q ".iconlarge, .activityicon, .icon, img")
    downloadUrl := hrefOrEmpty el "a[href*=\"resource\"], a[href*=\"pluginfile\"], a[href*=\"folder\"]" }

/-- `extractFile` (extractors.ts lines 169-230). -/
def extractFile (e : Except Unit DomNode) : Option FileRec :=
  match e with
  | .error _ => none
  | .ok el => some (fileFromElement el)

/-- The completion-status logic of `extractZybookIntegration`
(extractors.ts lines 265-277): text and class checks. -/
def zybookCompletionFrom (n : Option DomNode) : String :=
  match n with
  | some nd =>
    if (match nd.text with
        | some t => jsIncludes (jsToLower (jsTrim t)) "complete"
        | none => false) || jsIncludes nd.className "completion-y" then "Completed"
    else if (match nd.text with
        | some t => jsIncludes (jsToLower (jsTrim t)) "progress"
        | none => false) || jsIncludes nd.className "completion-n" then "In Progress"
    else "Not started"
  | none => "Not started"

/-- The progress logic of `extractZybookIntegration` (extractors.ts
lines 280-304): percentage text first, then the progress-bar width. -/
def zybookProgressFrom (n : Option DomNode) : Option ℕ :=
  match n with
  | some nd =>
    match (match nd.text with
      | some t => (matchPct (jsTrim t)).map fun ds : String => digitsVal ds.data
      | none => (none : Option ℕ)) with
    | some p => some p
    | none =>
      match nd.q ".progress-bar, .bar" with
      | some bar =>
        if bar.styleWidth = "" then none
        else (matchPct bar.styleWidth).map fun ds : String => digitsVal ds.data
      | none => none
  | none => none

/-- The evaluate callback of `extractZybookIntegration` (extractors.ts
lines 237-324).  Note the empty-string title default. -/
def zybookFromElement (el : DomNode) : ZybookRec :=
  { title := textOrDefault
      (el.q ".instancename, .activity-name, .lti-title, .external-tool-title") ""
    url := hrefOrEmpty el "a[href*=\"zybook\"], a[href*=\"lti\"], a[href*=\"external\"]"
    dueDate := dueDateFrom (el.q ".due-date, .duedate, [class*=\"due\"]")
    completionStatus := zybookCompletionFrom
      (el.q ".status, .completion-status, .completion-manual, .completion-auto")
    progress := zybookProgressFrom
      (el.q ".progress, .completion-progress, [class*=\"progress\"]") }

/-- `extractZybookIntegration` (extractors.ts lines 237-324). -/
def extractZybookIntegration (e : Except Unit DomNode) : Option ZybookRec :=
  match e with
  | .error _ => none
  | .ok el => some (zybookFromElement el)

/-! ## The private extractors of MoodleScraper.ts

These differ from extractors.ts in their defaults and in calling
`toISOString()` on a freshly constructed `Date` without an `isNaN`
guard: on an invalid date that call throws inside the evaluate
callback, the `catch` turns the whole record into null. -/

/-- The evaluate callback of `extractAssignmentData` (MoodleScraper.ts
lines 327-381): none models the `toISOString` throw on an invalid
matched date (line 345). -/
def assignmentDataFromElement (el : DomNode) (rnd : String) : Option AssignmentRec :=
  let mkRec : Option CivilDate → AssignmentRec := fun dd =>
    { id := (matchId (hrefOrEmpty el "a[href*=\"assign\"]")).getD rnd
      title := textOrDefault (el.q ".instancename, .activity-name, h3, .mod-indent-title")
        "Unknown Assignment"
      description := ""
      dueDate := dd
      submissionStatus := statusFrom (el.q ".status, .submission-status, [class*=\"status\"]")
      maxGrade := .num 0
      currentGrade := none
      url := hrefOrEmpty el "a[href*=\"assign\"]" }
  match el.q ".due-date, .assignment-due, [class*=\"due\"]" with
  | some nd =>
    match nd.text with
    | some t =>
      if jsTrim t = "" then some (mkRec none)
      else
        match matchP1 (jsTrim t) with
        | some mt =>
          match jsNewDate mt with
          | some d => some (mkRec (some d))
          | none => none
        | none => some (mkRec none)
    | none => some (mkRec none)
  | none => some (mkRec none)

/-- `extractAssignmentData` (MoodleScraper.ts lines 327-381): null when
the evaluation throws, else the callback result. -/
def extractAssignmentData (e : Except Unit (DomNode × String)) : Option AssignmentRec :=
  match e with
  | .error _ => none
  | .ok (el, rnd) => assignmentDataFromElement el rnd

/-- The evaluate callback of `extractGradeData` (MoodleScraper.ts lines
383-432): none models the unguarded `toISOString` throw on an invalid
date text (line 409). -/
def gradeDataFromElement (el : DomNode) : Option GradeRecS :=
  let mkRec : Option CivilDate → GradeRecS := fun dm =>
    { itemName := textOrDefault (el.q ".gradeitem, .item-name, td:first-child") "Unknown Item"
      grade := textOrDefault (el.q ".grade, .points, .score") "0"
      maxGrade := textOrDefault (el.q ".max-grade, .total-points, .out-of") "0"
      percentage := extractGradeData_percentage
        (textOrDefault (el.q ".grade, .points, .score") "0")
        (textOrDefault (el.q ".max-grade, .total-points, .out-of") "0")
      feedback := textOrNull (el.q ".feedback, .comment")
      dateModified := dm }
  match el.q ".date-modified, .last-modified, .timestamp" with
  | some nd =>
    match nd.text with
    | some t =>
      if jsTrim t = "" then some (mkRec none)
      else
        match jsNewDate (jsTrim t) with
        | some d => some (mkRec (some d))
        | none => none
    | none => some (mkRec none)
  | none => some (mkRec none)

/-- `extractGradeData` (MoodleScraper.ts lines 383-432). -/
def extractGradeData (e : Except Unit DomNode) : Option GradeRecS :=
  match e with
  | .error _ => none
  | .ok el => gradeDataFromElement el

/-- The evaluate callback of `extractFileData` (MoodleScraper.ts lines
434-467): no length check on the URL split and no final "unknown"
default, so an element with no type text and no URL keeps the empty
string. -/
def fileDataFromElement (el : DomNode) : FileRec :=
  { name := textOrDefault (el.q ".instancename, .resource-name, .filename") "Unknown File"
    url := hrefOrEmpty el "a[href*=\"resource\"], a[href*=\"mod_resource\"]"
    size := textOrDefault (el.q ".filesize, .file-size, [class*=\"size\"]") "Unknown size"
    type :=
      if textOrDefault (el.q ".filetype, .file-type, .mimetype") "" = "" ∧
          hrefOrEmpty el "a[href*=\"resource\"], a[href*=\"mod_resource\"]" ≠ "" then
        if String.mk (((splitOnDot
            (hrefOrEmpty el "a[href*=\"resource\"], a[href*=\"mod_resource\"]").data).getLastD
              []).map Char.toLower) = "" then "unknown"
        else String.mk (((splitOnDot
          (hrefOrEmpty el "a[href*=\"resource\"], a[href*=\"mod_resource\"]").data).getLastD
            []).map Char.toLower)
      else textOrDefault (el.q ".filetype, .file-type, .mimetype") ""
    downloadUrl := hrefOrEmpty el "a[href*=\"resource\"], a[href*=\"mod_resource\"]" }

/-- `extractFileData` (MoodleScraper.ts lines 434-467). -/
def extractFileData (e : Except Unit DomNode) : Option FileRec :=
  match e with
  | .error _ => none
  | .ok el => some (fileDataFromElement el)

/-- The evaluate callback of `extractZybookData` (MoodleScraper.ts
lines 469-521): none models the unguarded `toISOString` throw on an
invalid matched due date (line 487). -/
def zybookDataFromElement (el : DomNode) : Option ZybookRec :=
  let mkRec : Option CivilDate → ZybookRec := fun dd =>
    { title := textOrDefault (el.q ".instancename, .activity-name, .lti-title") "Zybook Activity"
      url := hrefOrEmpty el "a[href*=\"zybook\"], a[href*=\"lti\"]"
      dueDate := dd
      completionStatus := textOrDefault
        (el.q ".status, .completion-status, [class*=\"status\"]") "Not started"
      progress :=
        match el.q ".progress, .completion, [class*=\"progress\"]" with
        | some nd =>
          match nd.text with
          | some t => (matchPct (jsTrim t)).map fun ds : String => digitsVal ds.data
          | none => none
        | none => none }
  match el.q ".due-date, [class*=\"due\"]" with
  | some nd =>
    match nd.text with
    | some t =>
      if jsTrim t = "" then some (mkRec none)
      else
        match matchP1 (jsTrim t) with
        | some mt =>
          match jsNewDate mt with
          | some d => some (mkRec (some d))
          | none => none
        | none => some (mkRec none)
    | none => some (mkRec none)
  | none => some (mkRec none)

/-- `extractZybookData` (MoodleScraper.ts lines 469-521). -/
def extractZybookData (e : Except Unit DomNode) : Option ZybookRec :=
  match e with
  | .error _ => none
  | .ok el => zybookDataFromElement el

/-! ## C3: defaults on an empty element -/

theorem extractGrade_percentage_00 : extractGrade_percentage "0" "0" = .num 0 := by
  unfold extractGrade_percentage
  rw [maxGradeValueOf_zero_str,
    if_neg (show ¬(jsGtZero (.num 0) = true) by rw [jsGtZero_num_iff]; norm_num)]

theorem extractGradeData_percentage_00 : extractGradeData_percentage "0" "0" = none := by
  unfold extractGradeData_percentage
  rw [maxGradeValueOf_zero_str,
    if_neg (show ¬(jsGtZero (.num 0) = true) by rw [jsGtZero_num_iff]; norm_num)]

/-- C3 counterexample.  The claim names "Unknown Item" as the grade
extractor's item default, "Zybook Activity" as the integration
extractor's title default, and "unknown" as the file extractor's type
default, with no empty string ever standing in for a defined default.
On an empty element, the extractors.ts integration extractor titles the
record with the empty string, its grade extractor sets `itemName` to
null, and the MoodleScraper file extractor leaves the type as the empty
string. -/
theorem c3_defaults_counterexample :
    (zybookFromElement emptyElem).title = "" ∧ ("" : String) ≠ "Zybook Activity" ∧
    (gradeFromElement emptyElem).itemName = none ∧
    (fileDataFromElement emptyElem).type = "" ∧ ("" : String) ≠ "unknown" :=
  ⟨rfl, by decide, rfl, rfl, by decide⟩

/-- C3 (amended).  On an element with empty or absent content every
extractor returns a fully populated record (no field undefined), with
these defaults: both assignment extractors use "Unknown Assignment";
`extractGrade` (extractors.ts) nulls the item name while
`extractGradeData` (MoodleScraper.ts) uses "Unknown Item";
`extractFile` uses "unknown" for the type while `extractFileData`
leaves the empty string; `extractZybookIntegration` titles with the
empty string while `extractZybookData` uses "Zybook Activity"; both
integration extractors use "Not started" for completion. -/
theorem c3_empty_element_defaults (rnd : String) :
    assignmentFromElement emptyElem rnd =
      ⟨rnd, "Unknown Assignment", "", none, .not_submitted, .num 0, none, ""⟩ ∧
    gradeFromElement emptyElem = ⟨none, "0", "0", .num 0, none, none⟩ ∧
    fileFromElement emptyElem = ⟨"Unknown File", "", "Unknown size", "unknown", ""⟩ ∧
    zybookFromElement emptyElem = ⟨"", "", none, "Not started", none⟩ ∧
    assignmentDataFromElement emptyElem rnd =
      some ⟨rnd, "Unknown Assignment", "", none, .not_submitted, .num 0, none, ""⟩ ∧
    gradeDataFromElement emptyElem = some ⟨"Unknown Item", "0", "0", none, none, none⟩ ∧
    fileDataFromElement emptyElem = ⟨"Unknown File", "", "Unknown size", "", ""⟩ ∧
    zybookDataFromElement emptyElem = some ⟨"Zybook Activity", "", none, "Not started", none⟩ := by
  refine ⟨rfl, ?_, rfl, rfl, rfl, ?_, rfl, rfl⟩
  · have h : gradeFromElement emptyElem =
        ⟨none, "0", "0", extractGrade_percentage "0" "0", none, none⟩ := rfl
    rw [h, extractGrade_percentage_00]
  · have h : gradeDataFromElement emptyElem =
        some ⟨"Unknown Item", "0", "0", extractGradeData_percentage "0" "0", none, none⟩ := rfl
    rw [h, extractGradeData_percentage_00]

/-! ## C8: file type inference -/

/-- Splitting at a leading dot. -/
theorem splitOnDot_cons_dot (rest : List Char) :
    splitOnDot ('.' :: rest) = [] :: splitOnDot rest := by
  simp [splitOnDot]

/-- Splitting at a leading non-dot. -/
theorem splitOnDot_cons_nodot {c : Char} {rest hd : List Char} {tl : List (List Char)}
    (hc : ¬(c = '.')) (h : splitOnDot rest = hd :: tl) :
    splitOnDot (c :: rest) = (c :: hd) :: tl := by
  simp [splitOnDot, if_neg hc, h]

theorem splitOnDot_ne_nil (l : List Char) : splitOnDot l ≠ [] := by
  induction l with
  | nil => simp [splitOnDot]
  | cons c rest ih =>
    by_cases hc : c = '.'
    · subst hc; rw [splitOnDot_cons_dot]; simp
    · cases h : splitOnDot rest with
      | nil => exact absurd h ih
      | cons hd tl => rw [splitOnDot_cons_nodot hc h]; simp

theorem splitOnDot_no_dot {l : List Char} (h : ¬('.' ∈ l)) : splitOnDot l = [l] := by
  induction l with
  | nil => rfl
  | cons c rest ih =>
    have hc : ¬(c = '.') := fun he => h (he ▸ List.mem_cons_self c rest)
    have hr : ¬('.' ∈ rest) := fun he => h (List.mem_cons_of_mem c he)
    exact splitOnDot_cons_nodot hc (ih hr)

theorem splitOnDot_length_gt_one {l : List Char} :
    1 < (splitOnDot l).length ↔ '.' ∈ l := by
  induction l with
  | nil => simp [splitOnDot]
  | cons c rest ih =>
    by_cases hc : c = '.'
    · subst hc
      rw [splitOnDot_cons_dot]
      simp only [List.length_cons, List.mem_cons, true_or, iff_true]
      have h1 : 0 < (splitOnDot rest).length :=
        List.length_pos.mpr (splitOnDot_ne_nil rest)
      omega
    · cases h : splitOnDot rest with
      | nil => exact absurd h (splitOnDot_ne_nil rest)
      | cons hd tl =>
        rw [splitOnDot_cons_nodot hc h]
        rw [h] at ih
        simp only [List.length_cons] at ih ⊢
        rw [List.mem_cons]
        constructor
        · intro hlen; exact Or.inr (ih.mp hlen)
        · rintro (he | he)
          · exact absurd he.symm hc
          · exact ih.mpr he

theorem takeWhile_append_all (p : Char → Bool) {m : List Char} (l' : List Char)
    (h : ∀ x ∈ m, p x = true) : (m ++ l').takeWhile p = m ++ l'.takeWhile p := by
  induction m with
  | nil => rfl
  | cons a m' ih =>
    simp only [List.cons_append, List.takeWhile_cons, h a (List.mem_cons_self a m'), if_true,
      List.cons.injEq, true_and]
    exact ih fun x hx => h x (List.mem_cons_of_mem a hx)

theorem takeWhile_append_stop (p : Char → Bool) {m : List Char} (l' : List Char)
    (h : ∃ x ∈ m, p x = false) : (m ++ l').takeWhile p = m.takeWhile p := by
  induction m with
  | nil => obtain ⟨x, hx, _⟩ := h; cases hx
  | cons a m' ih =>
    by_cases ha : p a = true
    · simp only [List.cons_append, List.takeWhile_cons, ha, if_true, List.cons.injEq, true_and]
      apply ih
      obtain ⟨x, hx, hpx⟩ := h
      rcases List.mem_cons.mp hx with he | he
      · subst he; rw [ha] at hpx; cases hpx
      · exact ⟨x, he, hpx⟩
    · have ha' : p a = false := Bool.not_eq_true _ ▸ Bool.of_not_eq_true ha
      simp [List.takeWhile_cons, ha']

/-- The last piece of the dot split is the suffix after the final dot. -/
theorem splitOnDot_getLast {l : List Char} (h : '.' ∈ l) :
    (splitOnDot l).getLast? = some ((l.reverse.takeWhile fun c => c != '.').reverse) := by
  have hdot : (('.' : Char) != '.') = false := by decide
  induction l with
  | nil => cases h
  | cons c rest ih =>
    by_cases hc : c = '.'
    · subst hc
      rw [splitOnDot_cons_dot, List.reverse_cons]
      cases hsp : splitOnDot rest with
      | nil => exact absurd hsp (splitOnDot_ne_nil rest)
      | cons hd tl =>
        rw [List.getLast?_cons_cons]
        by_cases hr : '.' ∈ rest
        · rw [← hsp, ih hr]
          congr 1
          rw [takeWhile_append_stop (fun c => c != '.') _ ⟨'.', List.mem_reverse.mpr hr, hdot⟩]
        · rw [splitOnDot_no_dot hr] at hsp
          cases hsp
          rw [takeWhile_append_all (fun c => c != '.') _ fun x hx => ?_]
          · simp
          · simp only [List.mem_reverse] at hx
            simp only [bne_iff_ne, ne_eq, decide_eq_true_eq]
            intro he; exact hr (he ▸ hx)
    · have hr : '.' ∈ rest := by
        rcases List.mem_cons.mp h with he | he
        · exact absurd he.symm hc
        · exact he
      cases hsp : splitOnDot rest with
      | nil => exact absurd hsp (splitOnDot_ne_nil rest)
      | cons hd tl =>
        have hlen : 1 < (splitOnDot rest).length := splitOnDot_length_gt_one.mpr hr
        rw [hsp] at hlen
        cases tl with
        | nil => simp at hlen
        | cons hd2 tl2 =>
          rw [splitOnDot_cons_nodot hc hsp, List.getLast?_cons_cons]
          have hsw : (hd2 :: tl2).getLast? = (splitOnDot rest).getLast? := by
            rw [hsp, List.getLast?_cons_cons]
          rw [hsw, ih hr]
          congr 1
          rw [List.reverse_cons,
            takeWhile_append_stop (fun c => c != '.') _ ⟨'.', List.mem_reverse.mpr hr, hdot⟩]

theorem String_mk_ne_empty {l : List Char} (h : l ≠ []) : String.mk l ≠ "" := by
  intro he
  exact h (congrArg String.data he)

/-- The element of the C8 counterexample: no explicit type text, no
icon, and a link whose URL ends in the unrecognized extension ".xyz". -/
def fileElemXyz : DomNode :=
  .mk none "" "" "" "" fun s =>
    if s = "a[href*=\"resource\"], a[href*=\"pluginfile\"], a[href*=\"folder\"]" then
      some (.mk none "https://example.com/file.xyz" "" "" "" fun _ => none)
    else none

/-- C8 counterexample.  The claim states that a URL ending in an absent
or unrecognized extension infers the type "unknown".  The code has no
extension vocabulary: it returns whatever follows the final dot, so
".xyz" gives "xyz", and a URL with no extension after the last slash
but a dot in its host gives the trailing substring ("com/file"). -/
theorem c8_fileType_counterexample :
    (fileFromElement fileElemXyz).type = "xyz" ∧ ("xyz" : String) ≠ "unknown" ∧
    fileTypeFrom "" "https://example.com/file" none = "com/file" ∧
    ("com/file" : String) ≠ "unknown" :=
  ⟨rfl, by decide, rfl, by decide⟩

/-- C8 (amended).  With an empty explicit type field and no icon hints:
an empty URL, a URL containing no ".", or a URL ending in "." infer
exactly "unknown"; any other URL infers the substring after the final
"." of the whole URL (which need not be a filename extension and is not
checked against any vocabulary), lower-cased. -/
theorem c8_fileType_inference (url : String) :
    (url = "" → fileTypeFrom "" url none = "unknown") ∧
    (¬('.' ∈ url.data) → fileTypeFrom "" url none = "unknown") ∧
    ('.' ∈ url.data → (url.data.reverse.takeWhile fun c => c != '.').reverse = [] →
      fileTypeFrom "" url none = "unknown") ∧
    (∀ ext, '.' ∈ url.data →
      (url.data.reverse.takeWhile fun c => c != '.').reverse = ext → ext ≠ [] →
      fileTypeFrom "" url none = String.mk (ext.map Char.toLower)) := by
  refine ⟨?_, ?_, ?_, ?_⟩
  · intro h; subst h; rfl
  · intro hnd
    by_cases hurl : url = ""
    · subst hurl; rfl
    · have hlen : ¬(1 < (splitOnDot url.data).length) :=
        fun hl => hnd (splitOnDot_length_gt_one.mp hl)
      unfold fileTypeFrom
      split_ifs with h1 h2 <;> first
        | rfl
        | exact absurd ‹1 < (splitOnDot url.data).length› hlen
        | exact absurd (And.intro rfl hurl) ‹¬(("" : String) = "" ∧ url ≠ "")›
        | simp_all [iconOverride]
  · intro hdot hext
    have hurl : url ≠ "" := by
      intro he
      rw [he] at hdot
      cases hdot
    have hlen : 1 < (splitOnDot url.data).length := splitOnDot_length_gt_one.mpr hdot
    have hlast : (splitOnDot url.data).getLastD [] = [] := by
      rw [List.getLastD_eq_getLast?, splitOnDot_getLast hdot, hext]
      rfl
    unfold fileTypeFrom
    rw [hlast]
    split_ifs with h1 h2 h3 <;> first
      | rfl
      | exact absurd hlen ‹¬(1 < (splitOnDot url.data).length)›
      | exact absurd (And.intro rfl hurl) ‹¬(("" : String) = "" ∧ url ≠ "")›
      | simp_all [iconOverride]
  · intro ext hdot hext hne
    have hurl : url ≠ "" := by
      intro he
      rw [he] at hdot
      cases hdot
    have hlen : 1 < (splitOnDot url.data).length := splitOnDot_length_gt_one.mpr hdot
    have hlast : (splitOnDot url.data).getLastD [] = ext := by
      rw [List.getLastD_eq_getLast?, splitOnDot_getLast hdot, hext]
      rfl
    have hmapne : ext.map Char.toLower ≠ [] := by
      intro he
      exact hne (List.map_eq_nil_iff.mp he)
    have hne' : String.mk (ext.map Char.toLower) ≠ "" := String_mk_ne_empty hmapne
    unfold fileTypeFrom
    rw [hlast]
    split_ifs with h1 h2 h3 h4 h5 <;> first
      | rfl
      | exact absurd hlen ‹¬(1 < (splitOnDot url.data).length)›
      | exact absurd (And.intro rfl hurl) ‹¬(("" : String) = "" ∧ url ≠ "")›
      | exact absurd ‹String.mk (ext.map Char.toLower) = ""› hne'
      | (by_cases hX : String.mk (ext.map Char.toLower) = "unknown" <;>
          simp [hX, hne', iconOverride])
      | simp_all [iconOverride]

/-- Witness for `c8_fileType_inference` at a URL with extension ".xyz"
and a dotless URL. -/
theorem c8_fileType_inference_witness :
    fileTypeFrom "" "https://example.com/file.xyz" none = "xyz" ∧
    fileTypeFrom "" "nodots" none = "unknown" := by
  constructor
  · have h := (c8_fileType_inference "https://example.com/file.xyz").2.2.2 ['x', 'y', 'z']
      (by decide) (by decide) (by decide)
    rw [h]
    decide
  · exact (c8_fileType_inference "nodots").2.1 (by decide)

/-! ## C5: per-element failure isolation in `scrapeAssignments`
(MoodleScraper.ts lines 159-182) -/

/-- `scrapeAssignments`: a thrown element enumeration (the outer catch)
gives the empty list; otherwise each element is extracted, failed
extractions are skipped, and the successes are collected in order. -/
def scrapeAssignments (page : Except Unit (List (Except Unit (DomNode × String)))) :
    List AssignmentRec :=
  match page with
  | .error _ => []
  | .ok elems => elems.filterMap extractAssignmentData

/-- C5.  A per-element failure (the element evaluation throws) yields
null for that element and the enumeration skips it and continues; an
empty collection page yields `[]`; a batch in which every element fails
yields `[]`, not an error; and a thrown enumeration also yields `[]`. -/
theorem c5_per_element_isolation :
    extractAssignmentData (.error ()) = none ∧
    scrapeAssignments (.ok []) = [] ∧
    scrapeAssignments (.error ()) = [] ∧
    (∀ e es, extractAssignmentData e = none →
      scrapeAssignments (.ok (e :: es)) = scrapeAssignments (.ok es)) ∧
    (∀ e es a, extractAssignmentData e = some a →
      scrapeAssignments (.ok (e :: es)) = a :: scrapeAssignments (.ok es)) ∧
    (∀ es, (∀ e ∈ es, extractAssignmentData e = none) → scrapeAssignments (.ok es) = []) := by
  refine ⟨rfl, rfl, rfl, ?_, ?_, ?_⟩
  · intro e es h
    show (e :: es).filterMap extractAssignmentData = es.filterMap extractAssignmentData
    rw [List.filterMap_cons_none h]
  · intro e es a h
    show (e :: es).filterMap extractAssignmentData = a :: es.filterMap extractAssignmentData
    rw [List.filterMap_cons_some h]
  · intro es h
    induction es with
    | nil => rfl
    | cons e rest ih =>
      show (e :: rest).filterMap extractAssignmentData = []
      rw [List.filterMap_cons_none (h e (List.mem_cons_self e rest))]
      exact ih fun x hx => h x (List.mem_cons_of_mem e hx)

/-- Witness for `c5_per_element_isolation`: a batch of one failing
element yields `[]`. -/
theorem c5_per_element_isolation_witness :
    scrapeAssignments (.ok [.error ()]) = [] :=
  c5_per_element_isolation.2.2.2.2.2 [.error ()] fun e he => by
    rw [List.mem_singleton] at he
    subst he
    rfl

/-! ## C10: `isSessionValid` (MoodleScraper.ts lines 301-324) -/

/-- The environment of the liveness probe: the navigation outcome and
the selector-lookup outcomes (either of which may throw). -/
structure ProbeEnv where
  goto : Except Unit Unit
  find : String → Except Unit Bool

/-- The login-form indicators checked by `isSessionValid`. -/
def loginIndicators : List String :=
  ["input[name=\"username\"]", "input[name=\"password\"]", ".login-form", "#loginform"]

/-- The indicator loop: false on a lookup error (absorbed by the outer
catch) or on a found indicator; true when all lookups miss. -/
def checkLoginIndicators (env : ProbeEnv) : List String → Bool
  | [] => true
  | s :: rest =>
    match env.find s with
    | .error _ => false
    | .ok true => false
    | .ok false => checkLoginIndicators env rest

/-- `isSessionValid`: false without a live page; false when the probe
navigation throws; false when a login indicator is found or a lookup
throws; true otherwise. -/
def isSessionValid (hasPage : Bool) (env : ProbeEnv) : Bool :=
  if hasPage = false then false
  else
    match env.goto with
    | .error _ => false
    | .ok _ => checkLoginIndicators env loginIndicators

theorem checkLoginIndicators_true_iff (env : ProbeEnv) :
    ∀ L : List String, checkLoginIndicators env L = true ↔ ∀ s ∈ L, env.find s = .ok false
  | [] => by simp [checkLoginIndicators]
  | s :: rest => by
    unfold checkLoginIndicators
    cases hf : env.find s with
    | error e =>
      simp only [Bool.false_eq_true, false_iff]
      intro h
      have := h s (List.mem_cons_self s rest)
      rw [hf] at this
      cases this
    | ok b =>
      cases b with
      | true =>
        simp only [Bool.false_eq_true, false_iff]
        intro h
        have := h s (List.mem_cons_self s rest)
        rw [hf] at this
        cases this
      | false =>
        rw [checkLoginIndicators_true_iff env rest]
        constructor
        · intro h t ht
          rcases List.mem_cons.mp ht with he | he
          · subst he; exact hf
          · exact h t he
        · intro h t ht
          exact h t (List.mem_cons_of_mem s ht)

/-- C10.  `isSessionValid` never throws (it is a total boolean in the
model, with every environment failure absorbed): without a live page it
is false; a thrown navigation probe gives false; a thrown selector
lookup gives false; and it is true exactly when the page is live, the
probe succeeds, and every login-form indicator lookup misses. -/
theorem c10_isSessionValid_absorbs (hasPage : Bool) (env : ProbeEnv) :
    (hasPage = false → isSessionValid hasPage env = false) ∧
    (env.goto = .error () → isSessionValid hasPage env = false) ∧
    ((∃ s ∈ loginIndicators, env.find s = .error ()) → isSessionValid hasPage env = false) ∧
    (isSessionValid hasPage env = true ↔
      hasPage = true ∧ env.goto = .ok () ∧ ∀ s ∈ loginIndicators, env.find s = .ok false) := by
  have hiff : isSessionValid hasPage env = true ↔
      hasPage = true ∧ env.goto = .ok () ∧ ∀ s ∈ loginIndicators, env.find s = .ok false := by
    unfold isSessionValid
    cases hasPage with
    | false => simp
    | true =>
      rw [if_neg (show ¬(true = false) by simp)]
      cases hg : env.goto with
      | error e =>
        cases e
        simp
      | ok u =>
        cases u
        rw [checkLoginIndicators_true_iff env loginIndicators]
        simp
  refine ⟨?_, ?_, ?_, hiff⟩
  · intro h; subst h; rfl
  · intro h
    cases hres : isSessionValid hasPage env with
    | false => rfl
    | true =>
      obtain ⟨_, hg, _⟩ := hiff.mp hres
      rw [h] at hg
      cases hg
  · rintro ⟨s, hs, herr⟩
    cases hres : isSessionValid hasPage env with
    | false => rfl
    | true =>
      obtain ⟨_, _, hall⟩ := hiff.mp hres
      have := hall s hs
      rw [herr] at this
      cases this

/-- Witness for `c10_isSessionValid_absorbs`: no live page gives false;
a live page with a clean probe and no indicators gives true. -/
theorem c10_isSessionValid_absorbs_witness :
    isSessionValid false ⟨.ok (), fun _ => .ok false⟩ = false ∧
    isSessionValid true ⟨.ok (), fun _ => .ok false⟩ = true :=
  ⟨(c10_isSessionValid_absorbs false ⟨.ok (), fun _ => .ok false⟩).1 rfl,
   (c10_isSessionValid_absorbs true ⟨.ok (), fun _ => .ok false⟩).2.2.2.mpr
     ⟨rfl, rfl, fun _ _ => rfl⟩⟩

/-! ## C7: the two-factor wait loop (MoodleAuth, `waitFor2FACompletion`)

`maxWaitTime = 300000` ms, `checkInterval = 2000` ms; each iteration
polls `detect2FA` and `isOnDashboard` (modelled as boolean streams
indexed by poll number), returns when the challenge clears or the
dashboard appears, and throws a timeout error once `elapsed` reaches
the ceiling — after exactly 150 polls.  The progress logging does not
alter the state machine and is not modelled. -/

/-- The timeout error message. -/
def twoFATimeoutMsg : String := "2FA timeout - please complete authentication faster"

/-- The wait loop body, parameterized by the current `elapsed` value and
the poll index. -/
def waitFor2FAAux (still2FA onDashboard : ℕ → Bool) (elapsed poll : ℕ) :
    Except String Unit :=
  if elapsed < 300000 then
    if !(still2FA poll) || onDashboard poll then .ok ()
    else waitFor2FAAux still2FA onDashboard (elapsed + 2000) (poll + 1)
  else .error twoFATimeoutMsg
termination_by 300000 - elapsed
decreasing_by omega

/-- `waitFor2FACompletion`: the loop from `elapsed = 0`. -/
def waitFor2FACompletion (still2FA onDashboard : ℕ → Bool) : Except String Unit :=
  waitFor2FAAux still2FA onDashboard 0 0

theorem waitFor2FAAux_timeout (s d : ℕ → Bool) :
    ∀ fuel elapsed poll, 300000 - elapsed ≤ fuel → elapsed = 2000 * poll →
      (∀ k, k < 150 → s k = true ∧ d k = false) →
      waitFor2FAAux s d elapsed poll = .error twoFATimeoutMsg := by
  intro fuel
  induction fuel with
  | zero =>
    intro elapsed poll hf _ _
    unfold waitFor2FAAux
    rw [if_neg (by omega)]
  | succ fuel ih =>
    intro elapsed poll hf he hk
    unfold waitFor2FAAux
    by_cases hlt : elapsed < 300000
    · rw [if_pos hlt]
      obtain ⟨hs, hd⟩ := hk poll (by omega)
      rw [hs, hd]
      rw [if_neg (by simp)]
      exact ih (elapsed + 2000) (poll + 1) (by omega) (by omega) hk
    · rw [if_neg hlt]

theorem waitFor2FAAux_clears (s d : ℕ → Bool) :
    ∀ fuel elapsed poll, 300000 - elapsed ≤ fuel → elapsed = 2000 * poll →
      (∃ k, poll ≤ k ∧ k < 150 ∧ (s k = false ∨ d k = true)) →
      waitFor2FAAux s d elapsed poll = .ok () := by
  intro fuel
  induction fuel with
  | zero =>
    intro elapsed poll hf he hex
    obtain ⟨k, hpk, hk, _⟩ := hex
    omega
  | succ fuel ih =>
    intro elapsed poll hf he hex
    have hlt : elapsed < 300000 := by
      obtain ⟨k, hpk, hk, _⟩ := hex
      omega
    unfold waitFor2FAAux
    rw [if_pos hlt]
    by_cases hcur : (!(s poll) || d poll) = true
    · rw [if_pos hcur]
    · rw [if_neg hcur]
      have hsd : s poll = true ∧ d poll = false := by
        cases hsp : s poll <;> cases hdp : d poll <;> simp [hsp, hdp] at hcur ⊢
      apply ih (elapsed + 2000) (poll + 1) (by omega) (by omega)
      obtain ⟨k, hpk, hk, hcond⟩ := hex
      refine ⟨k, ?_, hk, hcond⟩
      rcases Nat.eq_or_lt_of_le hpk with heq | hlt'
      · subst heq
        rcases hcond with hc | hc
        · rw [hsd.1] at hc; cases hc
        · rw [hsd.2] at hc; cases hc
      · omega

theorem waitFor2FAAux_dichotomy (s d : ℕ → Bool) :
    ∀ fuel elapsed poll, 300000 - elapsed ≤ fuel →
      waitFor2FAAux s d elapsed poll = .ok () ∨
      waitFor2FAAux s d elapsed poll = .error twoFATimeoutMsg := by
  intro fuel
  induction fuel with
  | zero =>
    intro elapsed poll hf
    unfold waitFor2FAAux
    rw [if_neg (by omega)]
    exact Or.inr rfl
  | succ fuel ih =>
    intro elapsed poll hf
    unfold waitFor2FAAux
    by_cases hlt : elapsed < 300000
    · rw [if_pos hlt]
      by_cases hcur : (!(s poll) || d poll) = true
      · rw [if_pos hcur]; exact Or.inl rfl
      · rw [if_neg hcur]
        exact ih (elapsed + 2000) (poll + 1) (by omega)
    · rw [if_neg hlt]; exact Or.inr rfl

/-- C7.  The wait loop polls at the fixed 2-second interval up to the
5-minute ceiling and always terminates with one of exactly two
outcomes: if the challenge markers persist through every one of the 150
polls inside the ceiling (no denial marker exists in this
implementation), the result is the distinct timeout error, not a hang;
if the challenge clears (or the dashboard appears) at some poll before
the ceiling, the result is success. -/
theorem c7_waitFor2FA_bounded (s d : ℕ → Bool) :
    ((∀ k, k < 150 → s k = true ∧ d k = false) →
      waitFor2FACompletion s d = .error twoFATimeoutMsg) ∧
    ((∃ k, k < 150 ∧ (s k = false ∨ d k = true)) →
      waitFor2FACompletion s d = .ok ()) ∧
    (waitFor2FACompletion s d = .ok () ∨
      waitFor2FACompletion s d = .error twoFATimeoutMsg) := by
  refine ⟨?_, ?_, ?_⟩
  · intro hk
    exact waitFor2FAAux_timeout s d 300000 0 0 (by omega) (by omega) hk
  · rintro ⟨k, hk, hcond⟩
    exact waitFor2FAAux_clears s d 300000 0 0 (by omega) (by omega)
      ⟨k, by omega, hk, hcond⟩
  · exact waitFor2FAAux_dichotomy s d 300000 0 0 (by omega)

/-- Witness for `c7_waitFor2FA_bounded`: markers that never clear give
the timeout error; markers that clear immediately give success. -/
theorem c7_waitFor2FA_bounded_witness :
    waitFor2FACompletion (fun _ => true) (fun _ => false) = .error twoFATimeoutMsg ∧
    waitFor2FACompletion (fun _ => false) (fun _ => false) = .ok () :=
  ⟨(c7_waitFor2FA_bounded (fun _ => true) (fun _ => false)).1 fun _ _ => ⟨rfl, rfl⟩,
   (c7_waitFor2FA_bounded (fun _ => false) (fun _ => false)).2.1
     ⟨0, by omega, Or.inl rfl⟩⟩

/-! ## C6: login form discovery

`MoodleAuth.performLogin` (MoodleAuth.ts) resolves the identifier
field, the secret field and the submit control before touching the
page; `MoodleScraper.login` (MoodleScraper.ts lines 41-129) resolves
the identifier and secret fields, types both credentials, and only then
looks for the submit control.  A page is a predicate telling which
selectors resolve; the result pairs the error message (none = success)
with the list of performed page actions. -/

/-- A page interaction. -/
inductive PageAction where
  | click : String → PageAction
  | typeText : String → String → PageAction
  | setValue : String → String → PageAction
deriving DecidableEq, Repr

/-- The username-field candidates of `MoodleAuth.findUsernameField`. -/
def usernameSelectors : List String :=
  ["input[name=\"username\"]", "input[name=\"email\"]", "input[type=\"email\"]",
   "input[id=\"username\"]", "input[id=\"email\"]", "input[placeholder*=\"username\" i]",
   "input[placeholder*=\"email\" i]", "input[aria-label*=\"username\" i]",
   "input[aria-label*=\"email\" i]", ".form-group input[type=\"text\"]:first-of-type",
   "form input[type=\"text\"]:first-of-type"]

/-- The password-field candidates of `MoodleAuth.findPasswordField`. -/
def passwordSelectors : List String :=
  ["input[name=\"password\"]", "input[type=\"password\"]", "input[id=\"password\"]",
   "input[placeholder*=\"password\" i]", "input[aria-label*=\"password\" i]"]

/-- The submit-control candidates of `MoodleAuth.findSubmitButton`. -/
def submitSelectors : List String :=
  ["input[type=\"submit\"]", "button[type=\"submit\"]", "button:contains(\"Login\")",
   "button:contains(\"Sign in\")", "button:contains(\"Log in\")", "input[value*=\"login\" i]",
   "input[value*=\"sign in\" i]", ".btn-primary", ".login-btn", "#loginbtn",
   "form button:last-of-type"]

/-- `findUsernameField`: the first resolving candidate, else null. -/
def findUsernameField (page : String → Bool) : Option String :=
  usernameSelectors.find? page

/-- `findPasswordField`. -/
def findPasswordField (page : String → Bool) : Option String :=
  passwordSelectors.find? page

/-- `findSubmitButton`. -/
def findSubmitButton (page : String → Bool) : Option String :=
  submitSelectors.find? page

/-- `MoodleAuth.performLogin` (lines 158-187): resolves all three
controls, throws "Could not locate all required login form elements"
when any is missing (before any typing or clicking), else clicks and
types the credentials, echoes the anti-forgery token if present, and
clicks submit. -/
def performLogin (page : String → Bool) (email password : String)
    (csrfToken : Option String) : Option String × List PageAction :=
  match findUsernameField page, findPasswordField page, findSubmitButton page with
  | some u, some p, some s =>
    (none,
      [.click u, .typeText u email, .click p, .typeText p password] ++
      (match csrfToken with
       | some tk =>
         if page "input[name=\"logintoken\"], input[name=\"_token\"]" then
           [PageAction.setValue "input[name=\"logintoken\"], input[name=\"_token\"]" tk]
         else []
       | none => []) ++
      [.click s])
  | _, _, _ => (some "Could not locate all required login form elements", [])

/-- The email-field candidates of `MoodleScraper.findLoginSelector`. -/
def msEmailSelectors : List String :=
  ["input[name=\"username\"]", "input[name=\"email\"]", "input[type=\"email\"]",
   "input[id*=\"email\"]", "input[id*=\"username\"]", "#username", "#email"]

/-- The password candidates of `MoodleScraper.findPasswordSelector`. -/
def msPasswordSelectors : List String :=
  ["input[name=\"password\"]", "input[type=\"password\"]", "#password"]

/-- The button candidates of `MoodleScraper.findLoginButton`. -/
def msButtonSelectors : List String :=
  ["button[type=\"submit\"]", "input[type=\"submit\"]", "button:contains(\"Login\")",
   "button:contains(\"Sign in\")", ".btn-primary", "#loginbtn"]

/-- `MoodleScraper.login` (lines 41-77): finds the email and password
selectors (each finder throws when no candidate resolves — the catch
wraps the message with "Login failed: "), types both credentials, then
finds and clicks the login button, and verifies the outcome against the
page content.  Note the ordering: the button is resolved only after the
credentials are typed. -/
def msLogin (page : String → Bool) (email password : String) (content : String) :
    Option String × List PageAction :=
  match msEmailSelectors.find? page with
  | none => (some "Login failed: Could not find email/username input field", [])
  | some u =>
    match msPasswordSelectors.find? page with
    | none => (some "Login failed: Could not find password input field", [])
    | some p =>
      match msButtonSelectors.find? page with
      | none =>
        (some "Login failed: Could not find login button",
         [.typeText u email, .typeText p password])
      | some btn =>
        if jsIncludes content "Invalid login" || jsIncludes content "Login failed" ||
            jsIncludes content "incorrect" then
          (some "Login failed: Invalid credentials",
           [.typeText u email, .typeText p password, .click btn])
        else (none, [.typeText u email, .typeText p password, .click btn])

/-- The page of the C6 counterexample: an identifier field and a secret
field resolve, no submit control does. -/
def pageNoSubmit (s : String) : Bool :=
  s == "input[name=\"username\"]" || s == "input[name=\"password\"]"

/-- C6 counterexample.  The claim states `login()` never types
credentials when the submit control cannot be resolved.
`MoodleScraper.login` resolves the button only after typing: on a page
with username and password fields but no submit control it types both
credentials and then fails. -/
theorem c6_login_counterexample :
    msLogin pageNoSubmit "user@example.edu" "hunter2" "" =
      (some "Login failed: Could not find login button",
       [.typeText "input[name=\"username\"]" "user@example.edu",
        .typeText "input[name=\"password\"]" "hunter2"]) := by
  decide

/-- C6 (amended).  `MoodleAuth.performLogin` resolves all three
controls first: when the identifier field, the secret field or the
submit control is unresolved it terminates with the "Could not locate
all required login form elements" error, having performed no page
action, and never reports silent success.  `MoodleScraper.login`
likewise fails with no action when the identifier or the secret field
is unresolved, but when only the submit control is unresolved it types
both credentials before failing with "Could not find login button". -/
theorem c6_login_form_missing (page : String → Bool) (email password : String)
    (csrf : Option String) (content : String) :
    ((findUsernameField page = none ∨ findPasswordField page = none ∨
        findSubmitButton page = none) →
      performLogin page email password csrf =
        (some "Could not locate all required login form elements", [])) ∧
    (msEmailSelectors.find? page = none →
      msLogin page email password content =
        (some "Login failed: Could not find email/username input field", [])) ∧
    (∀ u, msEmailSelectors.find? page = some u → msPasswordSelectors.find? page = none →
      msLogin page email password content =
        (some "Login failed: Could not find password input field", [])) ∧
    (∀ u p, msEmailSelectors.find? page = some u → msPasswordSelectors.find? page = some p →
      msButtonSelectors.find? page = none →
      msLogin page email password content =
        (some "Login failed: Could not find login button",
         [.typeText u email, .typeText p password])) := by
  refine ⟨?_, ?_, ?_, ?_⟩
  · intro h
    unfold performLogin
    rcases h with h | h | h
    · rw [h]
    · rw [h]
      cases findUsernameField page <;> cases findSubmitButton page <;> rfl
    · rw [h]
      cases findUsernameField page <;> cases findPasswordField page <;> rfl
  · intro h
    unfold msLogin
    rw [h]
  · intro u hu hp
    unfold msLogin
    rw [hu, hp]
  · intro u p hu hp hb
    unfold msLogin
    rw [hu, hp, hb]

/-- Witness for `c6_login_form_missing`: on a blank page every branch
fails with the missing-elements error and no action. -/
theorem c6_login_form_missing_witness :
    performLogin (fun _ => false) "a@b.c" "pw" none =
      (some "Could not locate all required login form elements", []) ∧
    msLogin (fun _ => false) "a@b.c" "pw" "" =
      (some "Login failed: Could not find email/username input field", []) ∧
    msLogin pageNoSubmit "a@b.c" "pw" "" =
      (some "Login failed: Could not find login button",
       [.typeText "input[name=\"username\"]" "a@b.c",
        .typeText "input[name=\"password\"]" "pw"]) :=
  ⟨(c6_login_form_missing (fun _ => false) "a@b.c" "pw" none "").1 (Or.inl (by decide)),
   (c6_login_form_missing (fun _ => false) "a@b.c" "pw" none "").2.1 (by decide),
   (c6_login_form_missing pageNoSubmit "a@b.c" "pw" none "").2.2.2
     "input[name=\"username\"]" "input[name=\"password\"]" (by decide) (by decide) (by decide)⟩

/-! ## C4: the session lifecycle of `scrapeAll` and `scrapeMoodle`

The session state counts the launched, unclosed browser contexts
(`live`) and whether `this.browser` is currently set (`cur`).
`initialize` launches a fresh browser (overwriting the field without
closing any previous one); `close` closes the current browser if set
and nulls the field; the browser capability's own close is modelled as
succeeding, per the spec's opaque-capability boundary. -/

/-- The orchestrator's session state. -/
structure Sess where
  live : ℕ
  cur : Bool
deriving DecidableEq, Repr

/-- Which steps throw in a given run. -/
structure ScrapeEnv where
  initThrows : Bool
  loginThrows : Bool
  navThrows : Bool

/-- `initialize` (MoodleScraper.ts lines 28-39). -/
def initializeM (env : ScrapeEnv) (s : Sess) : Except String Sess :=
  if env.initThrows then .error "init failed" else .ok ⟨s.live + 1, true⟩

/-- `login` (lines 41-77): throws without a page, or when the run's
login fails. -/
def loginM (env : ScrapeEnv) (s : Sess) : Except String Sess :=
  if s.cur = false then .error "Browser not initialized"
  else if env.loginThrows then .error "Login failed" else .ok s

/-- `navigateToClass` (lines 146-157). -/
def navigateToClassM (env : ScrapeEnv) (s : Sess) : Except String Sess :=
  if s.cur = false then .error "Browser not initialized"
  else if env.navThrows then .error "Could not access class page" else .ok s

/-- `close` (lines 289-295): closes the current browser if set, nulls
the fields, and never throws. -/
def closeM (s : Sess) : Except String Unit × Sess :=
  if s.cur then (.ok (), ⟨s.live - 1, false⟩) else (.ok (), s)

/-- `scrapeAll` (lines 267-287): initialize, login, navigate, the four
extractions (which catch internally and cannot throw), close.  There is
no try/finally: an error propagates with the session left as it was. -/
def scrapeAllM (env : ScrapeEnv) (s : Sess) : Except String Unit × Sess :=
  match initializeM env s with
  | .error e => (.error e, s)
  | .ok s1 =>
    match loginM env s1 with
    | .error e => (.error e, s1)
    | .ok s2 =>
      match navigateToClassM env s2 with
      | .error e => (.error e, s2)
      | .ok s3 => ((closeM s3).1, (closeM s3).2)

/-- `scrapeMoodle` (src/index.ts lines 16-29): a fresh scraper, then
`try { initialize; login; return scrapeAll } finally { close }` — note
that `scrapeAll` runs `initialize` and `login` again. -/
def scrapeMoodleM (env : ScrapeEnv) : Except String Unit × Sess :=
  match initializeM env ⟨0, false⟩ with
  | .error e => (.error e, (closeM ⟨0, false⟩).2)
  | .ok s1 =>
    match loginM env s1 with
    | .error e => (.error e, (closeM s1).2)
    | .ok s2 => ((scrapeAllM env s2).1, (closeM (scrapeAllM env s2).2).2)

/-- C4 counterexample.  The claim states the session is destroyed on
every exit path of the scrape-everything operation.  `scrapeAll` has no
try/finally: when `login` throws after a successful `initialize`, it
returns with the browser still open.  And because `scrapeAll` launches
a second browser, even the fully successful `scrapeMoodle` run leaves
the first of its two browsers unclosed. -/
theorem c4_scrapeAll_leaks_counterexample :
    (scrapeAllM ⟨false, true, false⟩ ⟨0, false⟩).2 = ⟨1, true⟩ ∧
    (1 : ℕ) ≠ 0 ∧
    (scrapeMoodleM ⟨false, false, false⟩).1 = .ok () ∧
    (scrapeMoodleM ⟨false, false, false⟩).2 = ⟨1, false⟩ := by
  refine ⟨rfl, by decide, rfl, rfl⟩

/-- C4 (amended).  `scrapeAll` closes the session on its fully
successful path only; an error propagates with the session open.  The
`scrapeMoodle` wrapper's finally block runs `close()` on every exit
path, so the scraper's current handle is always closed at return, and a
login failure leaves no browser alive; `close()` itself completes
without throwing in every state.  (On the wrapper's success path the
re-initialization inside `scrapeAll` still leaks the first browser —
see the counterexample.) -/
theorem c4_lifecycle (env : ScrapeEnv) :
    scrapeAllM ⟨false, false, false⟩ ⟨0, false⟩ = (.ok (), ⟨0, false⟩) ∧
    (env.loginThrows = true → (scrapeMoodleM env).2 = ⟨0, false⟩) ∧
    (scrapeMoodleM env).2.cur = false ∧
    (∀ s, (closeM s).1 = .ok ()) := by
  obtain ⟨i, l, n⟩ := env
  refine ⟨rfl, ?_, ?_, fun s => ?_⟩
  · intro hl
    cases i <;> cases l <;> cases n <;> first | rfl | cases hl
  · cases i <;> cases l <;> cases n <;> rfl
  · unfold closeM
    split <;> rfl

/-- Witness for `c4_lifecycle`: a run whose login throws leaves no
browser alive after `scrapeMoodle`. -/
theorem c4_lifecycle_witness :
    (scrapeMoodleM ⟨false, true, false⟩).2 = ⟨0, false⟩ :=
  (c4_lifecycle ⟨false, true, false⟩).2.1 rfl

end MoodleScraper
